import Mathlib

/-!
Verification of the `serde_buf` buffering library (src/lib.rs, src/ser.rs,
src/de.rs) against its natural-language specification.

The development shallowly embeds the library:

* `Value` is the tagged-union buffer tree of `src/lib.rs` (`enum Value<'a>`).
  Rust machine integers are carried verbatim by the buffer (never computed
  with), so unsigned widths are embedded as `Nat`, signed widths as `Int`,
  and the two float widths as their raw bit patterns (`Nat`): the library
  only moves these values around, so the embedding is exact.
* `Owned` and `Ref` are the two ownership handles of `src/lib.rs`.  Rust
  lifetimes have no counterpart in the embedding; the `Ref`-specific claims
  are stated for the unbounded-lifetime case, exactly as the spec restricts
  them.
* `SValue` models an arbitrary well-typed driver of the push interface (an
  arbitrary `serde::Serialize` implementation that does not itself fail):
  it records exactly the calls the driver makes, including the declared
  length hints and the order and kind (`serialize_key` / `serialize_value` /
  `serialize_entry`) of map calls.
* `capture` is the capture adapter of `src/ser.rs` (`impl serde::Serializer
  for Serializer` together with the seven compound builders).
* `Event` traces model the recording encoder: one event per push-interface
  call, `serialize_entry` unfolding to its serde-default `serialize_key`
  followed by `serialize_value`.
* The decode side (`Visitor`, `deserializeAny`, the `Seq`/`Map`/`Enum`
  access types) embeds `src/de.rs`.
-/

set_option maxHeartbeats 1600000

/-- `struct Error(String)` of src/lib.rs: one opaque message-carrying kind. -/
structure Error where
  msg : String
deriving Repr, DecidableEq

/-- `ser::Error for Error` / `de::Error for Error`: `custom` stores the
formatted message. -/
def Error.custom (msg : String) : Error := ⟨msg⟩

/-- `impl fmt::Display for Error` of src/lib.rs lines 171-175: the display
output is the constant text, independent of the stored message. -/
def Error.displayFmt (_ : Error) : String := "error buffering a value"

/-- `#[derive(Debug)]` on `Error`: renders the constructor around the stored
message (Rust's character escaping inside the quotes is elided; the raw
message is kept verbatim). -/
def Error.debugFmt (e : Error) : String := "Error(\"" ++ e.msg ++ "\")"

/-- `enum Value<'a>` of src/lib.rs lines 535-599: the tagged-union buffer
tree.  `str`/`bytes` are the owned payloads, `borrowedStr`/`borrowedBytes`
the lifetime-bounded ones.  Static names (`&'static str`) are `String`. -/
inductive Value where
  | unit
  | u8 (v : Nat)
  | u16 (v : Nat)
  | u32 (v : Nat)
  | u64 (v : Nat)
  | u128 (v : Nat)
  | i8 (v : Int)
  | i16 (v : Int)
  | i32 (v : Int)
  | i64 (v : Int)
  | i128 (v : Int)
  | f32 (bits : Nat)
  | f64 (bits : Nat)
  | bool (v : Bool)
  | char (v : Char)
  | str (v : String)
  | borrowedStr (v : String)
  | bytes (v : List Nat)
  | borrowedBytes (v : List Nat)
  | none
  | some (v : Value)
  | unitStruct (name : String)
  | newtypeStruct (name : String) (value : Value)
  | struct (name : String) (fields : List (String × Value))
  | tuple (fields : List Value)
  | tupleStruct (name : String) (fields : List Value)
  | unitVariant (name : String) (variant_index : Nat) (variant : String)
  | newtypeVariant (name : String) (variant_index : Nat) (variant : String)
      (value : Value)
  | tupleVariant (name : String) (variant_index : Nat) (variant : String)
      (fields : List Value)
  | structVariant (name : String) (variant_index : Nat) (variant : String)
      (fields : List (String × Value))
  | seq (elems : List Value)
  | map (entries : List (Value × Value))

/-- `pub struct Owned(Value<'static>)` of src/lib.rs line 184. -/
structure Owned where
  val : Value

/-- `pub struct Ref<'a>(Value<'a>)` of src/lib.rs line 210.  The embedding
is lifetime-free, so this particular handle corresponds to the spec's
unbounded-lifetime `Ref<'static>` whenever a claim converts it to `Owned`. -/
structure Ref where
  val : Value

/-- `impl From<Ref<'static>> for Owned` of src/lib.rs lines 186-190. -/
def Owned.fromRef (r : Ref) : Owned := ⟨r.val⟩

/-- `impl From<Owned> for Ref<'static>` of src/lib.rs lines 212-216. -/
def Ref.fromOwned (o : Owned) : Ref := ⟨o.val⟩

/-- The three kinds of calls a driver may make on a `ser::SerializeMap`
builder (src/ser.rs lines 454-514): stage a key, supply a value, or supply
an atomic key/value entry. -/
inductive MapOpG (α : Type) where
  | key (k : α)
  | value (v : α)
  | entry (k v : α)

/-- A driver of the push interface: an arbitrary `serde::Serialize`
implementation whose own logic succeeds.  Each constructor records one way
of driving `impl serde::Serializer for Serializer` (src/ser.rs lines
225-434): scalars carry their payload, compound shapes carry the declared
length hint (`len` argument of the `serialize_*` call) followed by the
sequence of builder calls actually made.  Maps record the exact builder
call kinds (`serialize_key`/`serialize_value`/`serialize_entry`) in order,
since the capture adapter treats them differently. -/
inductive SValue where
  | unit
  | u8 (v : Nat)
  | u16 (v : Nat)
  | u32 (v : Nat)
  | u64 (v : Nat)
  | u128 (v : Nat)
  | i8 (v : Int)
  | i16 (v : Int)
  | i32 (v : Int)
  | i64 (v : Int)
  | i128 (v : Int)
  | f32 (bits : Nat)
  | f64 (bits : Nat)
  | bool (v : Bool)
  | char (v : Char)
  | str (v : String)
  | bytes (v : List Nat)
  | none
  | some (v : SValue)
  | unitStruct (name : String)
  | newtypeStruct (name : String) (value : SValue)
  | unitVariant (name : String) (variant_index : Nat) (variant : String)
  | newtypeVariant (name : String) (variant_index : Nat) (variant : String)
      (value : SValue)
  | seq (len : Option Nat) (elems : List SValue)
  | tuple (len : Nat) (fields : List SValue)
  | tupleStruct (name : String) (len : Nat) (fields : List SValue)
  | tupleVariant (name : String) (variant_index : Nat) (variant : String)
      (len : Nat) (fields : List SValue)
  | map (len : Option Nat) (ops : List (MapOpG SValue))
  | struct (name : String) (len : Nat) (fields : List (String × SValue))
  | structVariant (name : String) (variant_index : Nat) (variant : String)
      (len : Nat) (fields : List (String × SValue))

/-- `pub struct SerializeSeq` of src/ser.rs lines 185-187.  `cap` records
the argument passed to `Vec::with_capacity` (real state of the Rust `Vec`);
`fields` is the accumulated element list. -/
structure SerializeSeq where
  cap : Nat
  fields : List Value

/-- `pub struct SerializeTuple` of src/ser.rs lines 189-191. -/
structure SerializeTuple where
  cap : Nat
  fields : List Value

/-- `pub struct SerializeTupleStruct` of src/ser.rs lines 193-196. -/
structure SerializeTupleStruct where
  name : String
  cap : Nat
  fields : List Value

/-- `pub struct SerializeTupleVariant` of src/ser.rs lines 198-203. -/
structure SerializeTupleVariant where
  name : String
  variant_index : Nat
  variant : String
  cap : Nat
  fields : List Value

/-- `pub struct SerializeMap` of src/ser.rs lines 205-208: the two-phase
staging state machine; `key` is the staged pending key. -/
structure SerializeMap where
  cap : Nat
  key : Option Value
  fields : List (Value × Value)

/-- `pub struct SerializeStruct` of src/ser.rs lines 210-213. -/
structure SerializeStruct where
  name : String
  cap : Nat
  fields : List (String × Value)

/-- `pub struct SerializeStructVariant` of src/ser.rs lines 218-223. -/
structure SerializeStructVariant where
  name : String
  variant_index : Nat
  variant : String
  cap : Nat
  fields : List (String × Value)

/-- `Serializer::serialize_seq` (src/ser.rs lines 364-368):
`Vec::with_capacity(cmp::min(len.unwrap_or(0), 32))`. -/
def Serializer.serialize_seq (len : Option Nat) : SerializeSeq :=
  ⟨min (len.getD 0) 32, []⟩

/-- `Serializer::serialize_tuple` (src/ser.rs lines 370-374). -/
def Serializer.serialize_tuple (len : Nat) : SerializeTuple :=
  ⟨min len 32, []⟩

/-- `Serializer::serialize_tuple_struct` (src/ser.rs lines 376-385). -/
def Serializer.serialize_tuple_struct (name : String) (len : Nat) :
    SerializeTupleStruct :=
  ⟨name, min len 32, []⟩

/-- `Serializer::serialize_tuple_variant` (src/ser.rs lines 387-400). -/
def Serializer.serialize_tuple_variant (name : String) (variant_index : Nat)
    (variant : String) (len : Nat) : SerializeTupleVariant :=
  ⟨name, variant_index, variant, min len 32, []⟩

/-- `Serializer::serialize_map` (src/ser.rs lines 402-407): no staged key,
capacity `cmp::min(len.unwrap_or(0), 32)`. -/
def Serializer.serialize_map (len : Option Nat) : SerializeMap :=
  ⟨min (len.getD 0) 32, Option.none, []⟩

/-- `Serializer::serialize_struct` (src/ser.rs lines 409-418). -/
def Serializer.serialize_struct (name : String) (len : Nat) :
    SerializeStruct :=
  ⟨name, min len 32, []⟩

/-- `Serializer::serialize_struct_variant` (src/ser.rs lines 420-433). -/
def Serializer.serialize_struct_variant (name : String) (variant_index : Nat)
    (variant : String) (len : Nat) : SerializeStructVariant :=
  ⟨name, variant_index, variant, min len 32, []⟩

/-- `SerializeSeq::end` (src/ser.rs lines 449-451). -/
def SerializeSeq.finish (st : SerializeSeq) : Value := .seq st.fields

/-- `SerializeTuple::end` (src/ser.rs lines 581-583). -/
def SerializeTuple.finish (st : SerializeTuple) : Value := .tuple st.fields

/-- `SerializeTupleStruct::end` (src/ser.rs lines 599-604). -/
def SerializeTupleStruct.finish (st : SerializeTupleStruct) : Value :=
  .tupleStruct st.name st.fields

/-- `SerializeTupleVariant::end` (src/ser.rs lines 620-627). -/
def SerializeTupleVariant.finish (st : SerializeTupleVariant) : Value :=
  .tupleVariant st.name st.variant_index st.variant st.fields

/-- `SerializeMap::end` (src/ser.rs lines 507-513): fails with
`"missing map value"` if a staged key was never paired. -/
def SerializeMap.finish (st : SerializeMap) : Except Error Value :=
  if st.key.isSome then .error (Error.custom "missing map value")
  else .ok (.map st.fields)

/-- `SerializeStruct::end` (src/ser.rs lines 533-538). -/
def SerializeStruct.finish (st : SerializeStruct) : Value :=
  .struct st.name st.fields

/-- `SerializeStructVariant::end` (src/ser.rs lines 558-565). -/
def SerializeStructVariant.finish (st : SerializeStructVariant) : Value :=
  .structVariant st.name st.variant_index st.variant st.fields

mutual

/-- The capture adapter: `impl serde::Serializer for Serializer` of
src/ser.rs lines 225-434, driven by an arbitrary succeeding `Serialize`
implementation (`SValue`).  Scalar calls allocate the matching `Value`
variant; `serialize_str`/`serialize_bytes` take an owned copy; compound
shapes open the matching builder, replay the driver's builder calls and
finalize. -/
def capture : SValue → Except Error Value
  | .unit => .ok .unit
  | .u8 n => .ok (.u8 n)
  | .u16 n => .ok (.u16 n)
  | .u32 n => .ok (.u32 n)
  | .u64 n => .ok (.u64 n)
  | .u128 n => .ok (.u128 n)
  | .i8 n => .ok (.i8 n)
  | .i16 n => .ok (.i16 n)
  | .i32 n => .ok (.i32 n)
  | .i64 n => .ok (.i64 n)
  | .i128 n => .ok (.i128 n)
  | .f32 b => .ok (.f32 b)
  | .f64 b => .ok (.f64 b)
  | .bool b => .ok (.bool b)
  | .char c => .ok (.char c)
  | .str s => .ok (.str s)
  | .bytes b => .ok (.bytes b)
  | .none => .ok .none
  | .some v => do
      let c ← capture v
      .ok (.some c)
  | .unitStruct name => .ok (.unitStruct name)
  | .newtypeStruct name v => do
      let c ← capture v
      .ok (.newtypeStruct name c)
  | .unitVariant name idx variant => .ok (.unitVariant name idx variant)
  | .newtypeVariant name idx variant v => do
      let c ← capture v
      .ok (.newtypeVariant name idx variant c)
  | .seq len elems => do
      let st ← captureSeqElems elems (Serializer.serialize_seq len)
      .ok st.finish
  | .tuple len fields => do
      let st ← captureTupleElems fields (Serializer.serialize_tuple len)
      .ok st.finish
  | .tupleStruct name len fields => do
      let st ← captureTupleStructFields fields
        (Serializer.serialize_tuple_struct name len)
      .ok st.finish
  | .tupleVariant name idx variant len fields => do
      let st ← captureTupleVariantFields fields
        (Serializer.serialize_tuple_variant name idx variant len)
      .ok st.finish
  | .map len ops => do
      let st ← captureMapOps ops (Serializer.serialize_map len)
      st.finish
  | .struct name len fields => do
      let st ← captureStructFields fields
        (Serializer.serialize_struct name len)
      .ok st.finish
  | .structVariant name idx variant len fields => do
      let st ← captureStructVariantFields fields
        (Serializer.serialize_struct_variant name idx variant len)
      .ok st.finish
termination_by v => sizeOf v

/-- The driver's element loop over `SerializeSeq::serialize_element`
(src/ser.rs lines 440-447): each element is recursively captured and
pushed. -/
def captureSeqElems : List SValue → SerializeSeq → Except Error SerializeSeq
  | [], st => .ok st
  | v :: vs, st => do
      let c ← capture v
      captureSeqElems vs { st with fields := st.fields ++ [c] }
termination_by l _ => sizeOf l

/-- The driver's element loop over `SerializeTuple::serialize_element`
(src/ser.rs lines 572-579). -/
def captureTupleElems : List SValue → SerializeTuple →
    Except Error SerializeTuple
  | [], st => .ok st
  | v :: vs, st => do
      let c ← capture v
      captureTupleElems vs { st with fields := st.fields ++ [c] }
termination_by l _ => sizeOf l

/-- The driver's field loop over `SerializeTupleStruct::serialize_field`
(src/ser.rs lines 590-597). -/
def captureTupleStructFields : List SValue → SerializeTupleStruct →
    Except Error SerializeTupleStruct
  | [], st => .ok st
  | v :: vs, st => do
      let c ← capture v
      captureTupleStructFields vs { st with fields := st.fields ++ [c] }
termination_by l _ => sizeOf l

/-- The driver's field loop over `SerializeTupleVariant::serialize_field`
(src/ser.rs lines 611-618). -/
def captureTupleVariantFields : List SValue → SerializeTupleVariant →
    Except Error SerializeTupleVariant
  | [], st => .ok st
  | v :: vs, st => do
      let c ← capture v
      captureTupleVariantFields vs { st with fields := st.fields ++ [c] }
termination_by l _ => sizeOf l

/-- `SerializeMap::serialize_key` (src/ser.rs lines 458-469): a second
key-phase call while a key is staged fails with `"missing map value"`;
otherwise the captured key is staged. -/
def SerializeMap.serialize_key (st : SerializeMap) (k : SValue) :
    Except Error SerializeMap :=
  if st.key.isSome then .error (Error.custom "missing map value")
  else do
    let c ← capture k
    .ok { st with key := Option.some c }
termination_by sizeOf k + 1

/-- `SerializeMap::serialize_value` (src/ser.rs lines 471-484): takes the
staged key — failing with `"missing map key"` when none is staged — then
captures the value and appends the pair. -/
def SerializeMap.serialize_value (st : SerializeMap) (v : SValue) :
    Except Error SerializeMap :=
  match st.key with
  | Option.none => .error (Error.custom "missing map key")
  | Option.some k => do
      let c ← capture v
      .ok { st with key := Option.none, fields := st.fields ++ [(k, c)] }
termination_by sizeOf v + 1

/-- `SerializeMap::serialize_entry` (src/ser.rs lines 486-505): refuses a
dangling staged key, then captures key and value and appends the pair
without staging. -/
def SerializeMap.serialize_entry (st : SerializeMap) (k v : SValue) :
    Except Error SerializeMap :=
  if st.key.isSome then .error (Error.custom "missing map value")
  else do
    let ck ← capture k
    let cv ← capture v
    .ok { st with fields := st.fields ++ [(ck, cv)] }
termination_by sizeOf k + sizeOf v + 1

/-- The driver's call sequence over the `ser::SerializeMap` builder. -/
def captureMapOps : List (MapOpG SValue) → SerializeMap →
    Except Error SerializeMap
  | [], st => .ok st
  | .key k :: rest, st => do
      let st' ← st.serialize_key k
      captureMapOps rest st'
  | .value v :: rest, st => do
      let st' ← st.serialize_value v
      captureMapOps rest st'
  | .entry k v :: rest, st => do
      let st' ← st.serialize_entry k v
      captureMapOps rest st'
termination_by l _ => sizeOf l

/-- The driver's field loop over `SerializeStruct::serialize_field`
(src/ser.rs lines 520-531). -/
def captureStructFields : List (String × SValue) → SerializeStruct →
    Except Error SerializeStruct
  | [], st => .ok st
  | (name, v) :: vs, st => do
      let c ← capture v
      captureStructFields vs { st with fields := st.fields ++ [(name, c)] }
termination_by l _ => sizeOf l

/-- The driver's field loop over `SerializeStructVariant::serialize_field`
(src/ser.rs lines 545-556). -/
def captureStructVariantFields : List (String × SValue) →
    SerializeStructVariant → Except Error SerializeStructVariant
  | [], st => .ok st
  | (name, v) :: vs, st => do
      let c ← capture v
      captureStructVariantFields vs
        { st with fields := st.fields ++ [(name, c)] }
termination_by l _ => sizeOf l

end

/-- `Owned::buffer` (src/lib.rs lines 198-200):
`v.serialize(Serializer::new())`. -/
def Owned.buffer (v : SValue) : Except Error Owned :=
  (capture v).map Owned.mk

/-- The canonical strictly-alternating drive of a map builder: each pair is
supplied as a key-phase call followed by a value-phase call. -/
def keyValueOps (pairs : List (SValue × SValue)) : List (MapOpG SValue) :=
  pairs.flatMap fun p => [.key p.1, .value p.2]

/-- Capturing each key and value of a pair list in order. -/
def capturePairs : List (SValue × SValue) → Except Error (List (Value × Value))
  | [] => .ok []
  | (k, v) :: rest => do
      let ck ← capture k
      let cv ← capture v
      let tail ← capturePairs rest
      .ok ((ck, cv) :: tail)

/-- One recorded push-interface call of an arbitrary encoder: every
`serde::Serializer` method invocation an encoder can observe, with its
arguments.  `serialize_entry` is recorded as its serde-default expansion —
a `mapKey` call followed by a `mapValue` call — which is exactly what the
recording encoders of the spec's test scenarios observe. -/
inductive Event where
  | unit
  | u8 (v : Nat)
  | u16 (v : Nat)
  | u32 (v : Nat)
  | u64 (v : Nat)
  | u128 (v : Nat)
  | i8 (v : Int)
  | i16 (v : Int)
  | i32 (v : Int)
  | i64 (v : Int)
  | i128 (v : Int)
  | f32 (bits : Nat)
  | f64 (bits : Nat)
  | bool (v : Bool)
  | char (v : Char)
  | str (v : String)
  | bytes (v : List Nat)
  | none
  | someBegin
  | unitStruct (name : String)
  | newtypeStructBegin (name : String)
  | unitVariant (name : String) (variant_index : Nat) (variant : String)
  | newtypeVariantBegin (name : String) (variant_index : Nat)
      (variant : String)
  | beginSeq (len : Option Nat)
  | element
  | endSeq
  | beginTuple (len : Nat)
  | endTuple
  | beginTupleStruct (name : String) (len : Nat)
  | endTupleStruct
  | beginTupleVariant (name : String) (variant_index : Nat)
      (variant : String) (len : Nat)
  | endTupleVariant
  | beginMap (len : Option Nat)
  | mapKey
  | mapValue
  | endMap
  | beginStruct (name : String) (len : Nat)
  | structField (name : String)
  | endStruct
  | beginStructVariant (name : String) (variant_index : Nat)
      (variant : String) (len : Nat)
  | endStructVariant
deriving Repr, DecidableEq

mutual

/-- The push-interface call trace of driving an encoder directly over the
typed value: exactly the calls the driver makes, with the declared hints. -/
def strace : SValue → List Event
  | .unit => [.unit]
  | .u8 n => [.u8 n]
  | .u16 n => [.u16 n]
  | .u32 n => [.u32 n]
  | .u64 n => [.u64 n]
  | .u128 n => [.u128 n]
  | .i8 n => [.i8 n]
  | .i16 n => [.i16 n]
  | .i32 n => [.i32 n]
  | .i64 n => [.i64 n]
  | .i128 n => [.i128 n]
  | .f32 b => [.f32 b]
  | .f64 b => [.f64 b]
  | .bool b => [.bool b]
  | .char c => [.char c]
  | .str s => [.str s]
  | .bytes b => [.bytes b]
  | .none => [.none]
  | .some v => .someBegin :: strace v
  | .unitStruct name => [.unitStruct name]
  | .newtypeStruct name v => .newtypeStructBegin name :: strace v
  | .unitVariant name idx variant => [.unitVariant name idx variant]
  | .newtypeVariant name idx variant v =>
      .newtypeVariantBegin name idx variant :: strace v
  | .seq len elems => .beginSeq len :: straceElems elems ++ [.endSeq]
  | .tuple len fields => .beginTuple len :: straceElems fields ++ [.endTuple]
  | .tupleStruct name len fields =>
      .beginTupleStruct name len :: straceElems fields ++ [.endTupleStruct]
  | .tupleVariant name idx variant len fields =>
      .beginTupleVariant name idx variant len :: straceElems fields ++
        [.endTupleVariant]
  | .map len ops => .beginMap len :: straceOps ops ++ [.endMap]
  | .struct name len fields =>
      .beginStruct name len :: straceFields fields ++ [.endStruct]
  | .structVariant name idx variant len fields =>
      .beginStructVariant name idx variant len :: straceFields fields ++
        [.endStructVariant]
termination_by v => sizeOf v

/-- Element pushes: one `serialize_element`/`serialize_field` call per
element, each recursing into the element's own trace. -/
def straceElems : List SValue → List Event
  | [] => []
  | v :: vs => .element :: strace v ++ straceElems vs
termination_by l => sizeOf l

/-- Named-field pushes of struct / struct-variant builders. -/
def straceFields : List (String × SValue) → List Event
  | [] => []
  | (name, v) :: vs => .structField name :: strace v ++ straceFields vs
termination_by l => sizeOf l

/-- Map builder calls: `serialize_key`/`serialize_value` record their call
followed by the child's trace; `serialize_entry` records its serde-default
key-then-value expansion. -/
def straceOps : List (MapOpG SValue) → List Event
  | [] => []
  | .key k :: rest => .mapKey :: strace k ++ straceOps rest
  | .value v :: rest => .mapValue :: strace v ++ straceOps rest
  | .entry k v :: rest =>
      .mapKey :: strace k ++ (.mapValue :: strace v) ++ straceOps rest
termination_by l => sizeOf l

end

mutual

/-- The push-interface call trace of `impl Serialize for Value` (src/ser.rs
lines 33-160): the replay of a buffer through an encoder.  Compound shapes
pass the stored collection's actual length as the hint, and maps replay
each stored pair through `serialize_entry`. -/
def vtrace : Value → List Event
  | .unit => [.unit]
  | .u8 n => [.u8 n]
  | .u16 n => [.u16 n]
  | .u32 n => [.u32 n]
  | .u64 n => [.u64 n]
  | .u128 n => [.u128 n]
  | .i8 n => [.i8 n]
  | .i16 n => [.i16 n]
  | .i32 n => [.i32 n]
  | .i64 n => [.i64 n]
  | .i128 n => [.i128 n]
  | .f32 b => [.f32 b]
  | .f64 b => [.f64 b]
  | .bool b => [.bool b]
  | .char c => [.char c]
  | .str s => [.str s]
  | .borrowedStr s => [.str s]
  | .bytes b => [.bytes b]
  | .borrowedBytes b => [.bytes b]
  | .none => [.none]
  | .some v => .someBegin :: vtrace v
  | .unitStruct name => [.unitStruct name]
  | .newtypeStruct name v => .newtypeStructBegin name :: vtrace v
  | .unitVariant name idx variant => [.unitVariant name idx variant]
  | .newtypeVariant name idx variant v =>
      .newtypeVariantBegin name idx variant :: vtrace v
  | .struct name fields =>
      .beginStruct name fields.length :: vtraceFields fields ++ [.endStruct]
  | .tuple fields => .beginTuple fields.length :: vtraceElems fields ++
      [.endTuple]
  | .tupleStruct name fields =>
      .beginTupleStruct name fields.length :: vtraceElems fields ++
        [.endTupleStruct]
  | .tupleVariant name idx variant fields =>
      .beginTupleVariant name idx variant fields.length ::
        vtraceElems fields ++ [.endTupleVariant]
  | .structVariant name idx variant fields =>
      .beginStructVariant name idx variant fields.length ::
        vtraceFields fields ++ [.endStructVariant]
  | .seq elems => .beginSeq (Option.some elems.length) :: vtraceElems elems ++
      [.endSeq]
  | .map entries => .beginMap (Option.some entries.length) ::
      vtracePairs entries ++ [.endMap]
termination_by v => sizeOf v

/-- Replay of element lists (`serialize_element`/`serialize_field` loops of
src/ser.rs lines 76-90, 115-119, 143-147). -/
def vtraceElems : List Value → List Event
  | [] => []
  | v :: vs => .element :: vtrace v ++ vtraceElems vs
termination_by l => sizeOf l

/-- Replay of named-field lists (src/ser.rs lines 67-69, 134-136). -/
def vtraceFields : List (String × Value) → List Event
  | [] => []
  | (name, v) :: vs => .structField name :: vtrace v ++ vtraceFields vs
termination_by l => sizeOf l

/-- Replay of map pair lists: each stored pair goes through
`serialize_entry` (src/ser.rs lines 152-154), i.e. its default key-then-value
expansion. -/
def vtracePairs : List (Value × Value) → List Event
  | [] => []
  | (k, v) :: ps =>
      .mapKey :: vtrace k ++ (.mapValue :: vtrace v) ++ vtracePairs ps
termination_by l => sizeOf l

end

/-- Number of pairs a map-call sequence appends when it succeeds: one per
value-phase call and one per atomic entry call. -/
def opsPairs : List (MapOpG SValue) → Nat
  | [] => 0
  | .key _ :: rest => opsPairs rest
  | .value _ :: rest => opsPairs rest + 1
  | .entry _ _ :: rest => opsPairs rest + 1

mutual

/-- The driver declares accurate length hints: every `serialize_seq`/
`serialize_map` call passes `Some` of the actual element/pair count, and
every other compound call passes the actual count. -/
def hintsOk : SValue → Bool
  | .unit | .u8 _ | .u16 _ | .u32 _ | .u64 _ | .u128 _ | .i8 _ | .i16 _
  | .i32 _ | .i64 _ | .i128 _ | .f32 _ | .f64 _ | .bool _ | .char _
  | .str _ | .bytes _ | .none | .unitStruct _ | .unitVariant _ _ _ => true
  | .some v => hintsOk v
  | .newtypeStruct _ v => hintsOk v
  | .newtypeVariant _ _ _ v => hintsOk v
  | .seq len elems =>
      len == Option.some elems.length && hintsOkElems elems
  | .tuple len fields => len == fields.length && hintsOkElems fields
  | .tupleStruct _ len fields => len == fields.length && hintsOkElems fields
  | .tupleVariant _ _ _ len fields =>
      len == fields.length && hintsOkElems fields
  | .map len ops => len == Option.some (opsPairs ops) && hintsOkOps ops
  | .struct _ len fields => len == fields.length && hintsOkFields fields
  | .structVariant _ _ _ len fields =>
      len == fields.length && hintsOkFields fields
termination_by v => sizeOf v

def hintsOkElems : List SValue → Bool
  | [] => true
  | v :: vs => hintsOk v && hintsOkElems vs
termination_by l => sizeOf l

def hintsOkFields : List (String × SValue) → Bool
  | [] => true
  | (_, v) :: vs => hintsOk v && hintsOkFields vs
termination_by l => sizeOf l

def hintsOkOps : List (MapOpG SValue) → Bool
  | [] => true
  | .key k :: rest => hintsOk k && hintsOkOps rest
  | .value v :: rest => hintsOk v && hintsOkOps rest
  | .entry k v :: rest => hintsOk k && hintsOk v && hintsOkOps rest
termination_by l => sizeOf l

end

/-- The replay trace a staged-but-unpaired key will eventually contribute:
its `serialize_key` call and the key's own trace. -/
def stagedTrace : Option Value → List Event
  | Option.none => []
  | Option.some k => .mapKey :: vtrace k

/-- serde's `de::Error::invalid_type` default implementation:
`Error::custom(format_args!("invalid type: {}, expected {}", unexp, exp))`,
where `Unexpected::UnitVariant` displays as `"unit variant"`,
`NewtypeVariant` as `"newtype variant"`, `TupleVariant` as
`"tuple variant"` and `StructVariant` as `"struct variant"`. -/
def Error.invalid_type (unexp exp : String) : Error :=
  Error.custom ("invalid type: " ++ unexp ++ ", expected " ++ exp)

/-- `pub struct Deserializer<'de>(Value<'de>)` of src/de.rs line 22. -/
structure Deserializer where
  val : Value

/-- `IntoDeserializer for Value` (src/de.rs lines 127-133). -/
def Value.into_deserializer (v : Value) : Deserializer := ⟨v⟩

/-- `IntoDeserializer for Owned` (src/de.rs lines 111-117). -/
def Owned.into_deserializer (o : Owned) : Deserializer :=
  o.val.into_deserializer

/-- `IntoDeserializer for Ref` (src/de.rs lines 119-125). -/
def Ref.into_deserializer (r : Ref) : Deserializer :=
  r.val.into_deserializer

/-- `struct Seq<'de>(vec::IntoIter<Value<'de>>)` of src/de.rs line 135: the
single-pass sequence cursor, holding the not-yet-consumed elements. -/
structure De.Seq where
  remaining : List Value

/-- `Seq::new` (src/de.rs lines 137-141). -/
def De.Seq.new (fields : List Value) : De.Seq := ⟨fields⟩

/-- `SeqAccess::next_element_seed` (src/de.rs lines 146-154): pop the next
element, decode it through the caller's seed (which receives
`Deserializer(field)`), and report `None` once exhausted. -/
def De.Seq.next_element_seed {β : Type} (st : De.Seq)
    (seed : Deserializer → Except Error β) : Except Error (Option β × De.Seq) :=
  match st.remaining with
  | [] => .ok (Option.none, st)
  | v :: rest => (seed ⟨v⟩).map fun b => (Option.some b, ⟨rest⟩)

/-- A map-cursor key as handed to a key seed: the cursor is generic over
`K: IntoDeserializer` and is instantiated with `&str` keys (struct /
struct-variant buffers, whose `into_deserializer` is serde's string
deserializer) and with `Value` keys (map buffers, whose
`into_deserializer` is the buffer deserializer). -/
inductive De.MKey where
  | str (s : String)
  | val (v : Value)

/-- `struct Map<'de, K, E>` of src/de.rs lines 157-161: the map cursor with
its not-yet-consumed entries and the value staged by the last key
request. -/
structure De.Map where
  remaining : List (De.MKey × Value)
  value : Option Value

/-- `Map::new` (src/de.rs lines 169-177), at `K = Value`. -/
def De.Map.new (fields : List (Value × Value)) : De.Map :=
  ⟨fields.map fun p => (De.MKey.val p.1, p.2), Option.none⟩

/-- `Map::new_str_key` (src/de.rs lines 163-167), at `K = &str`. -/
def De.Map.new_str_key (fields : List (String × Value)) : De.Map :=
  ⟨fields.map fun p => (De.MKey.str p.1, p.2), Option.none⟩

/-- `MapAccess::next_key_seed` (src/de.rs lines 182-196): pop the next
entry, stage its value, and decode the key through the seed (which receives
`k.into_deserializer()`); report `None` once exhausted.  (The source maps
the key seed's error through `Error::custom`; the embedding's seeds already
produce the library error kind.) -/
def De.Map.next_key_seed {β : Type} (st : De.Map)
    (seed : De.MKey → Except Error β) : Except Error (Option β × De.Map) :=
  match st.remaining with
  | [] => .ok (Option.none, st)
  | (k, v) :: rest =>
      (seed k).map fun b => (Option.some b, ⟨rest, Option.some v⟩)

/-- `MapAccess::next_value_seed` (src/de.rs lines 198-207): take the staged
value — failing with `"missing map value"` when none is staged — and decode
it through the seed. -/
def De.Map.next_value_seed {β : Type} (st : De.Map)
    (seed : Deserializer → Except Error β) : Except Error (β × De.Map) :=
  match st.value with
  | Option.none => .error (Error.custom "missing map value")
  | Option.some v =>
      (seed ⟨v⟩).map fun b => (b, { st with value := Option.none })

/-- `enum Variant<'de>` of src/de.rs lines 216-220: the stored enum payload
as the decode side carries it. -/
inductive De.Variant where
  | value (v : Value)
  | tuple (fields : List Value)
  | struct (fields : List (String × Value))

/-- `struct Enum<'de>` of src/de.rs lines 210-214. -/
structure De.Enum where
  variant_index : Nat
  variant : String
  value : De.Variant

/-- One visit method per shape of the pull interface
(`serde::de::Visitor`), with the borrow-aware string/byte variants.  The
compound methods receive the concrete access objects src/de.rs hands them. -/
structure Visitor (α : Type) where
  visit_bool : Bool → Except Error α
  visit_u8 : Nat → Except Error α
  visit_u16 : Nat → Except Error α
  visit_u32 : Nat → Except Error α
  visit_u64 : Nat → Except Error α
  visit_u128 : Nat → Except Error α
  visit_i8 : Int → Except Error α
  visit_i16 : Int → Except Error α
  visit_i32 : Int → Except Error α
  visit_i64 : Int → Except Error α
  visit_i128 : Int → Except Error α
  visit_f32 : Nat → Except Error α
  visit_f64 : Nat → Except Error α
  visit_char : Char → Except Error α
  visit_str : String → Except Error α
  visit_string : String → Except Error α
  visit_borrowed_str : String → Except Error α
  visit_bytes : List Nat → Except Error α
  visit_byte_buf : List Nat → Except Error α
  visit_borrowed_bytes : List Nat → Except Error α
  visit_none : Except Error α
  visit_some : Deserializer → Except Error α
  visit_unit : Except Error α
  visit_newtype_struct : Deserializer → Except Error α
  visit_seq : De.Seq → Except Error α
  visit_map : De.Map → Except Error α
  visit_enum : De.Enum → Except Error α

/-- `EnumAccess::variant_seed` (src/de.rs lines 227-235): yield the stored
variant index to the caller's seed as a plain `U32` decode, and hand back
the access object itself for the payload. -/
def De.Enum.variant_seed {β : Type} (e : De.Enum)
    (seed : Deserializer → Except Error β) : Except Error (β × De.Enum) :=
  (seed (Value.u32 e.variant_index).into_deserializer).map fun b => (b, e)

/-- `VariantAccess::unit_variant` (src/de.rs lines 241-257). -/
def De.Enum.unit_variant (e : De.Enum) : Except Error Unit :=
  match e.value with
  | .value Value.unit => .ok ()
  | .value _ => .error (Error.invalid_type "unit variant" "newtype variant")
  | .tuple _ => .error (Error.invalid_type "unit variant" "tuple variant")
  | .struct _ => .error (Error.invalid_type "unit variant" "struct variant")

/-- `VariantAccess::newtype_variant_seed` (src/de.rs lines 259-273): unwrap
a stored newtype payload; reinterpret a stored tuple payload as a synthetic
`Tuple` value and a stored record payload as a synthetic `Struct` value
named after the variant, so the seed proceeds through ordinary tuple/struct
decode logic. -/
def De.Enum.newtype_variant_seed {β : Type} (e : De.Enum)
    (seed : Deserializer → Except Error β) : Except Error β :=
  let value := match e.value with
    | .value v => v
    | .tuple v => Value.tuple v
    | .struct v => Value.struct e.variant v
  seed value.into_deserializer

/-- `VariantAccess::tuple_variant` (src/de.rs lines 275-294): the `len`
argument is ignored. -/
def De.Enum.tuple_variant {β : Type} (e : De.Enum) (_len : Nat)
    (visitor : Visitor β) : Except Error β :=
  match e.value with
  | .tuple v => visitor.visit_seq (De.Seq.new v)
  | .value Value.unit =>
      .error (Error.invalid_type "unit variant" "tuple variant")
  | .value _ => .error (Error.invalid_type "newtype variant" "tuple variant")
  | .struct _ => .error (Error.invalid_type "struct variant" "tuple variant")

/-- `VariantAccess::struct_variant` (src/de.rs lines 296-319): the field
list argument is ignored. -/
def De.Enum.struct_variant {β : Type} (e : De.Enum) (_fields : List String)
    (visitor : Visitor β) : Except Error β :=
  match e.value with
  | .struct v => visitor.visit_map (De.Map.new_str_key v)
  | .value Value.unit =>
      .error (Error.invalid_type "unit variant" "struct variant")
  | .value _ => .error (Error.invalid_type "newtype variant" "struct variant")
  | .tuple _ => .error (Error.invalid_type "tuple variant" "struct variant")

/-- `Deserializer::deserialize_any` (src/de.rs lines 27-102): exactly one
visit call, matching the stored top-level `Value` variant; owned strings go
to `visit_string`, borrowed ones to `visit_borrowed_str`, owned bytes to
`visit_byte_buf`, borrowed ones to `visit_borrowed_bytes`; `Some` rewraps
the inner value into a fresh nested deserializer; unit structs visit as
plain unit; structs visit as string-keyed maps; tuple structs and tuples
visit as sequences; the four variant shapes visit as enums carrying the
matching payload. -/
def Deserializer.deserialize_any {α : Type} (d : Deserializer)
    (visitor : Visitor α) : Except Error α :=
  match d.val with
  | .u8 v => visitor.visit_u8 v
  | .u16 v => visitor.visit_u16 v
  | .u32 v => visitor.visit_u32 v
  | .u64 v => visitor.visit_u64 v
  | .u128 v => visitor.visit_u128 v
  | .i8 v => visitor.visit_i8 v
  | .i16 v => visitor.visit_i16 v
  | .i32 v => visitor.visit_i32 v
  | .i64 v => visitor.visit_i64 v
  | .i128 v => visitor.visit_i128 v
  | .f32 v => visitor.visit_f32 v
  | .f64 v => visitor.visit_f64 v
  | .bool v => visitor.visit_bool v
  | .char v => visitor.visit_char v
  | .str v => visitor.visit_string v
  | .borrowedStr v => visitor.visit_borrowed_str v
  | .bytes v => visitor.visit_byte_buf v
  | .borrowedBytes v => visitor.visit_borrowed_bytes v
  | .none => visitor.visit_none
  | .some v => visitor.visit_some v.into_deserializer
  | .unit => visitor.visit_unit
  | .unitStruct _ => visitor.visit_unit
  | .newtypeStruct _ value => visitor.visit_newtype_struct ⟨value⟩
  | .struct _ fields => visitor.visit_map (De.Map.new_str_key fields)
  | .tupleStruct _ fields => visitor.visit_seq (De.Seq.new fields)
  | .tuple v => visitor.visit_seq (De.Seq.new v)
  | .unitVariant _ variant_index variant =>
      visitor.visit_enum ⟨variant_index, variant, .value Value.unit⟩
  | .newtypeVariant _ variant_index variant value =>
      visitor.visit_enum ⟨variant_index, variant, .value value⟩
  | .tupleVariant _ variant_index variant fields =>
      visitor.visit_enum ⟨variant_index, variant, .tuple fields⟩
  | .structVariant _ variant_index variant fields =>
      visitor.visit_enum ⟨variant_index, variant, .struct fields⟩
  | .seq v => visitor.visit_seq (De.Seq.new v)
  | .map v => visitor.visit_map (De.Map.new v)

/-- `forward_to_deserialize_any!` expansion (src/de.rs lines 104-108): each
typed entry point below forwards to `deserialize_any`, dropping its
shape-specific arguments. -/
def Deserializer.deserialize_bool {α : Type} (d : Deserializer)
    (visitor : Visitor α) : Except Error α := d.deserialize_any visitor

def Deserializer.deserialize_i8 {α : Type} (d : Deserializer)
    (visitor : Visitor α) : Except Error α := d.deserialize_any visitor

def Deserializer.deserialize_i16 {α : Type} (d : Deserializer)
    (visitor : Visitor α) : Except Error α := d.deserialize_any visitor

def Deserializer.deserialize_i32 {α : Type} (d : Deserializer)
    (visitor : Visitor α) : Except Error α := d.deserialize_any visitor

def Deserializer.deserialize_i64 {α : Type} (d : Deserializer)
    (visitor : Visitor α) : Except Error α := d.deserialize_any visitor

def Deserializer.deserialize_i128 {α : Type} (d : Deserializer)
    (visitor : Visitor α) : Except Error α := d.deserialize_any visitor

def Deserializer.deserialize_u8 {α : Type} (d : Deserializer)
    (visitor : Visitor α) : Except Error α := d.deserialize_any visitor

def Deserializer.deserialize_u16 {α : Type} (d : Deserializer)
    (visitor : Visitor α) : Except Error α := d.deserialize_any visitor

def Deserializer.deserialize_u32 {α : Type} (d : Deserializer)
    (visitor : Visitor α) : Except Error α := d.deserialize_any visitor

def Deserializer.deserialize_u64 {α : Type} (d : Deserializer)
    (visitor : Visitor α) : Except Error α := d.deserialize_any visitor

def Deserializer.deserialize_u128 {α : Type} (d : Deserializer)
    (visitor : Visitor α) : Except Error α := d.deserialize_any visitor

def Deserializer.deserialize_f32 {α : Type} (d : Deserializer)
    (visitor : Visitor α) : Except Error α := d.deserialize_any visitor

def Deserializer.deserialize_f64 {α : Type} (d : Deserializer)
    (visitor : Visitor α) : Except Error α := d.deserialize_any visitor

def Deserializer.deserialize_char {α : Type} (d : Deserializer)
    (visitor : Visitor α) : Except Error α := d.deserialize_any visitor

def Deserializer.deserialize_str {α : Type} (d : Deserializer)
    (visitor : Visitor α) : Except Error α := d.deserialize_any visitor

def Deserializer.deserialize_string {α : Type} (d : Deserializer)
    (visitor : Visitor α) : Except Error α := d.deserialize_any visitor

def Deserializer.deserialize_bytes {α : Type} (d : Deserializer)
    (visitor : Visitor α) : Except Error α := d.deserialize_any visitor

def Deserializer.deserialize_byte_buf {α : Type} (d : Deserializer)
    (visitor : Visitor α) : Except Error α := d.deserialize_any visitor

def Deserializer.deserialize_option {α : Type} (d : Deserializer)
    (visitor : Visitor α) : Except Error α := d.deserialize_any visitor

def Deserializer.deserialize_unit {α : Type} (d : Deserializer)
    (visitor : Visitor α) : Except Error α := d.deserialize_any visitor

def Deserializer.deserialize_unit_struct {α : Type} (d : Deserializer)
    (_name : String) (visitor : Visitor α) : Except Error α :=
  d.deserialize_any visitor

def Deserializer.deserialize_newtype_struct {α : Type} (d : Deserializer)
    (_name : String) (visitor : Visitor α) : Except Error α :=
  d.deserialize_any visitor

def Deserializer.deserialize_seq {α : Type} (d : Deserializer)
    (visitor : Visitor α) : Except Error α := d.deserialize_any visitor

def Deserializer.deserialize_tuple {α : Type} (d : Deserializer)
    (_len : Nat) (visitor : Visitor α) : Except Error α :=
  d.deserialize_any visitor

def Deserializer.deserialize_tuple_struct {α : Type} (d : Deserializer)
    (_name : String) (_len : Nat) (visitor : Visitor α) : Except Error α :=
  d.deserialize_any visitor

def Deserializer.deserialize_map {α : Type} (d : Deserializer)
    (visitor : Visitor α) : Except Error α := d.deserialize_any visitor

def Deserializer.deserialize_struct {α : Type} (d : Deserializer)
    (_name : String) (_fields : List String) (visitor : Visitor α) :
    Except Error α := d.deserialize_any visitor

def Deserializer.deserialize_enum {α : Type} (d : Deserializer)
    (_name : String) (_variants : List String) (visitor : Visitor α) :
    Except Error α := d.deserialize_any visitor

def Deserializer.deserialize_identifier {α : Type} (d : Deserializer)
    (visitor : Visitor α) : Except Error α := d.deserialize_any visitor

def Deserializer.deserialize_ignored_any {α : Type} (d : Deserializer)
    (visitor : Visitor α) : Except Error α := d.deserialize_any visitor

/-- One strict key-then-value step of the decode-side map cursor, driven
through the `MapAccess` methods with pass-through seeds. -/
def De.Map.stepEntry (st : De.Map) : Except Error (Option ((De.MKey × Value) × De.Map)) := do
  let (k?, st₁) ← st.next_key_seed Except.ok
  match k? with
  | Option.none => .ok Option.none
  | Option.some k => do
      let (v, st₂) ← st₁.next_value_seed fun d => Except.ok d.val
      .ok (Option.some ((k, v), st₂))

mutual

/-- A universe of Rust types that both capture and decode: every shape of
the data model, closed under nesting.  `Ty` models a concrete Rust type
carrying `#[derive(Serialize, Deserialize)]`-style canonical serde
implementations (scalars and `String`/byte-string/`Option`/`Vec`/map
collections use serde's own canonical implementations). -/
inductive Ty where
  | unit
  | bool
  | u8
  | u16
  | u32
  | u64
  | u128
  | i8
  | i16
  | i32
  | i64
  | i128
  | f32
  | f64
  | char
  | str
  | bytes
  | option (t : Ty)
  | vec (t : Ty)
  | mapOf (k v : Ty)
  | tuple (ts : TyList)
  | unitStruct (name : String)
  | newtypeStruct (name : String) (t : Ty)
  | tupleStruct (name : String) (ts : TyList)
  | structTy (name : String) (fs : FieldTys)
  | enumTy (name : String) (vs : VariantTys)

/-- Component types of a tuple / tuple struct, in order. -/
inductive TyList where
  | nil
  | cons (t : Ty) (ts : TyList)

/-- Named fields of a record struct, in declaration order. -/
inductive FieldTys where
  | nil
  | cons (name : String) (t : Ty) (fs : FieldTys)

/-- The variants of an enum, in declaration order (the position is the
0-based variant index). -/
inductive VariantTys where
  | nil
  | cons (v : VariantTy) (vs : VariantTys)

/-- One enum variant: unit, newtype, tuple or record shaped. -/
inductive VariantTy where
  | unit (vn : String)
  | newtype (vn : String) (t : Ty)
  | tupleV (vn : String) (ts : TyList)
  | structV (vn : String) (fs : FieldTys)

end

mutual

/-- The Lean type of values of a universe type. -/
def interp : Ty → Type
  | .unit => Unit
  | .bool => Bool
  | .u8 => Nat
  | .u16 => Nat
  | .u32 => Nat
  | .u64 => Nat
  | .u128 => Nat
  | .i8 => Int
  | .i16 => Int
  | .i32 => Int
  | .i64 => Int
  | .i128 => Int
  | .f32 => Nat
  | .f64 => Nat
  | .char => Char
  | .str => String
  | .bytes => List Nat
  | .option t => Option (interp t)
  | .vec t => List (interp t)
  | .mapOf k v => List (interp k × interp v)
  | .tuple ts => interpList ts
  | .unitStruct _ => Unit
  | .newtypeStruct _ t => interp t
  | .tupleStruct _ ts => interpList ts
  | .structTy _ fs => interpFields fs
  | .enumTy _ vs => interpVariants vs

def interpList : TyList → Type
  | .nil => Unit
  | .cons t ts => interp t × interpList ts

def interpFields : FieldTys → Type
  | .nil => Unit
  | .cons _ t fs => interp t × interpFields fs

def interpVariants : VariantTys → Type
  | .nil => Empty
  | .cons v vs => interpVariant v ⊕ interpVariants vs

def interpVariant : VariantTy → Type
  | .unit _ => Unit
  | .newtype _ t => interp t
  | .tupleV _ ts => interpList ts
  | .structV _ fs => interpFields fs

end

def tyListLength : TyList → Nat
  | .nil => 0
  | .cons _ ts => tyListLength ts + 1

def fieldTysLength : FieldTys → Nat
  | .nil => 0
  | .cons _ _ fs => fieldTysLength fs + 1

def variantTysLength : VariantTys → Nat
  | .nil => 0
  | .cons _ vs => variantTysLength vs + 1

/-- The `&'static [&'static str]` field-name list a derived impl passes to
`deserialize_struct`. -/
def fieldNames : FieldTys → List String
  | .nil => []
  | .cons n _ fs => n :: fieldNames fs

/-- The variant-name list a derived impl passes to `deserialize_enum`. -/
def variantNames : VariantTys → List String
  | .nil => []
  | .cons (.unit vn) vs => vn :: variantNames vs
  | .cons (.newtype vn _) vs => vn :: variantNames vs
  | .cons (.tupleV vn _) vs => vn :: variantNames vs
  | .cons (.structV vn _) vs => vn :: variantNames vs

mutual

/-- The canonical derive-generated `Serialize` implementation of a universe
type, as a push-interface driver: scalars make the matching scalar call;
`Option` makes `serialize_none`/`serialize_some`; `Vec` makes
`serialize_seq(Some(len))` then one `serialize_element` per element; maps
make `serialize_map(Some(len))` then one `serialize_entry` per pair
(serde's `collect_map`); tuples/structs declare their exact arity; enum
variants pass the 0-based declaration position as the variant index. -/
def toDriver : (t : Ty) → interp t → SValue
  | .unit, _ => .unit
  | .bool, b => .bool b
  | .u8, n => .u8 n
  | .u16, n => .u16 n
  | .u32, n => .u32 n
  | .u64, n => .u64 n
  | .u128, n => .u128 n
  | .i8, n => .i8 n
  | .i16, n => .i16 n
  | .i32, n => .i32 n
  | .i64, n => .i64 n
  | .i128, n => .i128 n
  | .f32, b => .f32 b
  | .f64, b => .f64 b
  | .char, c => .char c
  | .str, s => .str s
  | .bytes, b => .bytes b
  | .option t, x => match x with
      | Option.none => .none
      | Option.some y => .some (toDriver t y)
  | .vec t, xs => .seq (Option.some xs.length) (xs.map fun y => toDriver t y)
  | .mapOf k v, es =>
      .map (Option.some es.length)
        (es.map fun e => MapOpG.entry (toDriver k e.1) (toDriver v e.2))
  | .tuple ts, x => .tuple (tyListLength ts) (toDriverTuple ts x)
  | .unitStruct name, _ => .unitStruct name
  | .newtypeStruct name t, x => .newtypeStruct name (toDriver t x)
  | .tupleStruct name ts, x =>
      .tupleStruct name (tyListLength ts) (toDriverTuple ts x)
  | .structTy name fs, x =>
      .struct name (fieldTysLength fs) (toDriverFields fs x)
  | .enumTy name vs, x => toDriverVariants name vs 0 x
termination_by t _ => sizeOf t

def toDriverTuple : (ts : TyList) → interpList ts → List SValue
  | .nil, _ => []
  | .cons t ts, x => toDriver t x.1 :: toDriverTuple ts x.2
termination_by ts _ => sizeOf ts

def toDriverFields : (fs : FieldTys) → interpFields fs →
    List (String × SValue)
  | .nil, _ => []
  | .cons n t fs, x => (n, toDriver t x.1) :: toDriverFields fs x.2
termination_by fs _ => sizeOf fs

def toDriverVariants : (name : String) → (vs : VariantTys) → Nat →
    interpVariants vs → SValue
  | name, .cons v _, i, Sum.inl x => toDriverVariant name v i x
  | name, .cons _ vs, i, Sum.inr x => toDriverVariants name vs (i + 1) x
  | _, .nil, _, x => x.elim
termination_by _ vs _ _ => sizeOf vs

def toDriverVariant : (name : String) → (v : VariantTy) → Nat →
    interpVariant v → SValue
  | name, .unit vn, i, _ => .unitVariant name i vn
  | name, .newtype vn t, i, x => .newtypeVariant name i vn (toDriver t x)
  | name, .tupleV vn ts, i, x =>
      .tupleVariant name i vn (tyListLength ts) (toDriverTuple ts x)
  | name, .structV vn fs, i, x =>
      .structVariant name i vn (fieldTysLength fs) (toDriverFields fs x)
termination_by _ v _ _ => sizeOf v

end

mutual

/-- The buffer the capture adapter produces for a canonical driver
(proved below: `capture (toDriver t x) = .ok (bufOf t x)`). -/
def bufOf : (t : Ty) → interp t → Value
  | .unit, _ => .unit
  | .bool, b => .bool b
  | .u8, n => .u8 n
  | .u16, n => .u16 n
  | .u32, n => .u32 n
  | .u64, n => .u64 n
  | .u128, n => .u128 n
  | .i8, n => .i8 n
  | .i16, n => .i16 n
  | .i32, n => .i32 n
  | .i64, n => .i64 n
  | .i128, n => .i128 n
  | .f32, b => .f32 b
  | .f64, b => .f64 b
  | .char, c => .char c
  | .str, s => .str s
  | .bytes, b => .bytes b
  | .option t, x => match x with
      | Option.none => .none
      | Option.some y => .some (bufOf t y)
  | .vec t, xs => .seq (xs.map fun y => bufOf t y)
  | .mapOf k v, es => .map (es.map fun e => (bufOf k e.1, bufOf v e.2))
  | .tuple ts, x => .tuple (bufOfTuple ts x)
  | .unitStruct name, _ => .unitStruct name
  | .newtypeStruct name t, x => .newtypeStruct name (bufOf t x)
  | .tupleStruct name ts, x => .tupleStruct name (bufOfTuple ts x)
  | .structTy name fs, x => .struct name (bufOfFields fs x)
  | .enumTy name vs, x => bufOfVariants name vs 0 x
termination_by t _ => sizeOf t

def bufOfTuple : (ts : TyList) → interpList ts → List Value
  | .nil, _ => []
  | .cons t ts, x => bufOf t x.1 :: bufOfTuple ts x.2
termination_by ts _ => sizeOf ts

def bufOfFields : (fs : FieldTys) → interpFields fs →
    List (String × Value)
  | .nil, _ => []
  | .cons n t fs, x => (n, bufOf t x.1) :: bufOfFields fs x.2
termination_by fs _ => sizeOf fs

def bufOfVariants : (name : String) → (vs : VariantTys) → Nat →
    interpVariants vs → Value
  | name, .cons v _, i, Sum.inl x => bufOfVariant name v i x
  | name, .cons _ vs, i, Sum.inr x => bufOfVariants name vs (i + 1) x
  | _, .nil, _, x => x.elim
termination_by _ vs _ _ => sizeOf vs

def bufOfVariant : (name : String) → (v : VariantTy) → Nat →
    interpVariant v → Value
  | name, .unit vn, i, _ => .unitVariant name i vn
  | name, .newtype vn t, i, x => .newtypeVariant name i vn (bufOf t x)
  | name, .tupleV vn ts, i, x => .tupleVariant name i vn (bufOfTuple ts x)
  | name, .structV vn fs, i, x =>
      .structVariant name i vn (bufOfFields fs x)
termination_by _ v _ _ => sizeOf v

end

/-- Capturing each element of a driver list in order. -/
def captureList : List SValue → Except Error (List Value)
  | [] => .ok []
  | v :: vs => do
      let c ← capture v
      let cs ← captureList vs
      .ok (c :: cs)

/-- Capturing each named field of a driver field list in order. -/
def captureFieldList : List (String × SValue) →
    Except Error (List (String × Value))
  | [] => .ok []
  | (n, v) :: vs => do
      let c ← capture v
      let cs ← captureFieldList vs
      .ok ((n, c) :: cs)

/-- The canonical map drive a derived map `Serialize` makes: one atomic
`serialize_entry` call per pair. -/
def entryOps (pairs : List (SValue × SValue)) : List (MapOpG SValue) :=
  pairs.map fun p => .entry p.1 p.2

/-- The pairs underlying `toDriverEntries`. -/
def toDriverPairs : (k v : Ty) → List (interp k × interp v) →
    List (SValue × SValue)
  | _, _, [] => []
  | k, v, e :: es =>
      (toDriver k e.1, toDriver v e.2) :: toDriverPairs k v es

/-- serde's default `Visitor` methods: every visit a target's visitor does
not overload fails with the visitor's own invalid-type error naming what it
was expecting.  (Only the fact that these are visitor-side errors matters
to the claims, not the exact text.) -/
def errVisitor (β : Type) (expecting : String) : Visitor β :=
  { visit_bool := fun _ => .error (Error.invalid_type "boolean" expecting)
    visit_u8 := fun _ => .error (Error.invalid_type "integer" expecting)
    visit_u16 := fun _ => .error (Error.invalid_type "integer" expecting)
    visit_u32 := fun _ => .error (Error.invalid_type "integer" expecting)
    visit_u64 := fun _ => .error (Error.invalid_type "integer" expecting)
    visit_u128 := fun _ => .error (Error.invalid_type "integer" expecting)
    visit_i8 := fun _ => .error (Error.invalid_type "integer" expecting)
    visit_i16 := fun _ => .error (Error.invalid_type "integer" expecting)
    visit_i32 := fun _ => .error (Error.invalid_type "integer" expecting)
    visit_i64 := fun _ => .error (Error.invalid_type "integer" expecting)
    visit_i128 := fun _ => .error (Error.invalid_type "integer" expecting)
    visit_f32 := fun _ =>
      .error (Error.invalid_type "floating point" expecting)
    visit_f64 := fun _ =>
      .error (Error.invalid_type "floating point" expecting)
    visit_char := fun _ => .error (Error.invalid_type "character" expecting)
    visit_str := fun _ => .error (Error.invalid_type "string" expecting)
    visit_string := fun _ => .error (Error.invalid_type "string" expecting)
    visit_borrowed_str := fun _ =>
      .error (Error.invalid_type "string" expecting)
    visit_bytes := fun _ =>
      .error (Error.invalid_type "byte array" expecting)
    visit_byte_buf := fun _ =>
      .error (Error.invalid_type "byte array" expecting)
    visit_borrowed_bytes := fun _ =>
      .error (Error.invalid_type "byte array" expecting)
    visit_none := .error (Error.invalid_type "Option value" expecting)
    visit_some := fun _ =>
      .error (Error.invalid_type "Option value" expecting)
    visit_unit := .error (Error.invalid_type "unit value" expecting)
    visit_newtype_struct := fun _ =>
      .error (Error.invalid_type "newtype struct" expecting)
    visit_seq := fun _ => .error (Error.invalid_type "sequence" expecting)
    visit_map := fun _ => .error (Error.invalid_type "map" expecting)
    visit_enum := fun _ => .error (Error.invalid_type "enum" expecting) }

/-- The derive-generated variant-identifier visitor as the enum dispatch
exercises it: the buffer yields the stored index as a `U32` decode, which
serde's default `visit_u32` forwards to the derived `visit_u64`, accepting
0-based indices below the variant count. -/
def identifierVisitor (vs : VariantTys) : Visitor Nat :=
  { errVisitor Nat "variant identifier" with
    visit_u32 := fun n =>
      if n < variantTysLength vs then .ok n
      else .error (Error.custom "variant index out of range") }

/-- The derived collection visitor's element loop over the sequence cursor:
each iteration is one `Seq::next_element_seed` call (pop the head element,
run the seed on its deserializer), stopping once the cursor is
exhausted. -/
def decodeListWith {β : Type} (dec : Deserializer → Except Error β) :
    List Value → Except Error (List β)
  | [] => .ok []
  | v :: rest => do
      let x ← dec ⟨v⟩
      let xs ← decodeListWith dec rest
      .ok (x :: xs)

/-- The derived map visitor's entry loop over the map cursor: each
iteration is one `next_key_seed` call (pop the entry, stage its value,
decode the key) followed by one `next_value_seed` call (take the staged
value, decode it), stopping at exhaustion. -/
def decodeEntriesWith {κ ν : Type} (dk : De.MKey → Except Error κ)
    (dv : Deserializer → Except Error ν) :
    List (De.MKey × Value) → Except Error (List (κ × ν))
  | [] => .ok []
  | (mk, mv) :: rest => do
      let kk ← dk mk
      let vv ← dv ⟨mv⟩
      let tail ← decodeEntriesWith dk dv rest
      .ok ((kk, vv) :: tail)

mutual

/-- The canonical derive-generated deserialization visitor of a universe
type: exactly one accepting visit method per shape (scalars accept their
own width; the buffer stores exact widths, so serde's cross-width numeric
acceptance is never exercised), `String`/byte targets accept borrowed and
owned visits alike, and compound targets drive the library's cursor
objects.  Nested targets deserialize via `deserialize_any`, which is exactly what
their typed entry points run (they forward to it verbatim). -/
def visFor : (t : Ty) → Visitor (interp t)
  | .unit => { errVisitor Unit "unit" with visit_unit := .ok () }
  | .bool => { errVisitor Bool "a boolean" with visit_bool := fun b => .ok b }
  | .u8 => { errVisitor Nat "u8" with visit_u8 := fun n => .ok n }
  | .u16 => { errVisitor Nat "u16" with visit_u16 := fun n => .ok n }
  | .u32 => { errVisitor Nat "u32" with visit_u32 := fun n => .ok n }
  | .u64 => { errVisitor Nat "u64" with visit_u64 := fun n => .ok n }
  | .u128 => { errVisitor Nat "u128" with visit_u128 := fun n => .ok n }
  | .i8 => { errVisitor Int "i8" with visit_i8 := fun n => .ok n }
  | .i16 => { errVisitor Int "i16" with visit_i16 := fun n => .ok n }
  | .i32 => { errVisitor Int "i32" with visit_i32 := fun n => .ok n }
  | .i64 => { errVisitor Int "i64" with visit_i64 := fun n => .ok n }
  | .i128 => { errVisitor Int "i128" with visit_i128 := fun n => .ok n }
  | .f32 => { errVisitor Nat "f32" with visit_f32 := fun b => .ok b }
  | .f64 => { errVisitor Nat "f64" with visit_f64 := fun b => .ok b }
  | .char => { errVisitor Char "a character" with
      visit_char := fun c => .ok c }
  | .str => { errVisitor String "a string" with
      visit_str := fun s => .ok s
      visit_string := fun s => .ok s
      visit_borrowed_str := fun s => .ok s }
  | .bytes => { errVisitor (List Nat) "a byte string" with
      visit_bytes := fun b => .ok b
      visit_byte_buf := fun b => .ok b
      visit_borrowed_bytes := fun b => .ok b }
  | .option t => { errVisitor (Option (interp t)) "an Option" with
      visit_none := .ok Option.none
      visit_some := fun d =>
        (d.deserialize_any (visFor t)).map Option.some }
  | .vec t => { errVisitor (List (interp t)) "a sequence" with
      visit_seq := fun st =>
        decodeListWith (fun d => d.deserialize_any (visFor t)) st.remaining }
  | .mapOf k v => { errVisitor (List (interp k × interp v)) "a map" with
      visit_map := fun st =>
        decodeEntriesWith
          (fun mk => match mk with
            | .val kv => Deserializer.deserialize_any ⟨kv⟩ (visFor k)
            | .str s => (visFor k).visit_str s)
          (fun d => d.deserialize_any (visFor v)) st.remaining }
  | .tuple ts => { errVisitor (interpList ts) "a tuple" with
      visit_seq := fun st => decodeTupleLoop ts st.remaining }
  | .unitStruct _ => { errVisitor Unit "a unit struct" with
      visit_unit := .ok () }
  | .newtypeStruct _ t => { errVisitor (interp t) "a newtype struct" with
      visit_newtype_struct := fun d => d.deserialize_any (visFor t) }
  | .tupleStruct _ ts => { errVisitor (interpList ts) "a tuple struct" with
      visit_seq := fun st => decodeTupleLoop ts st.remaining }
  | .structTy _ fs => { errVisitor (interpFields fs) "a struct" with
      visit_map := fun st => decodeFieldsLoop fs st.remaining }
  | .enumTy _ vs => { errVisitor (interpVariants vs) "an enum" with
      visit_enum := fun e =>
        (e.variant_seed fun d =>
            d.deserialize_any (identifierVisitor vs)).bind
          fun p => decodeVariantAt vs p.1 p.2 }
termination_by t => sizeOf t

/-- The derived tuple visitor: one `next_element` per component (missing
elements are an invalid-length error; the derived visitor does not request
elements past its arity). -/
def decodeTupleLoop : (ts : TyList) → List Value →
    Except Error (interpList ts)
  | .nil, _ => .ok ()
  | .cons _ _, [] => .error (Error.custom "invalid length")
  | .cons t ts, v :: rest => do
      let x ← Deserializer.deserialize_any ⟨v⟩ (visFor t)
      let xs ← decodeTupleLoop ts rest
      .ok (x, xs)
termination_by ts _ => sizeOf ts

/-- The derived struct visitor, in declaration-order form: one
`next_key`/`next_value` round per declared field, requiring the stored
string key to match the declared field name, and exhaustion afterwards.
(serde-derive additionally tolerates out-of-order and unknown fields;
buffers produced by this library always present fields in declaration
order, so the accepting paths coincide.) -/
def decodeFieldsLoop : (fs : FieldTys) → List (De.MKey × Value) →
    Except Error (interpFields fs)
  | .nil, [] => .ok ()
  | .nil, _ :: _ => .error (Error.custom "unexpected extra field")
  | .cons n _ _, [] => .error (Error.custom ("missing field " ++ n))
  | .cons n t fs, (mk, mv) :: rest =>
      match mk with
      | .str s =>
          if s = n then do
            let x ← Deserializer.deserialize_any ⟨mv⟩ (visFor t)
            let xs ← decodeFieldsLoop fs rest
            .ok (x, xs)
          else .error (Error.custom ("unknown or out-of-order field " ++ s))
      | .val _ => .error (Error.custom "non-string field key")
termination_by fs _ => sizeOf fs

/-- Dispatch on the decoded variant index: peel off declared variants until
the index designates the current one, then decode its payload. -/
def decodeVariantAt : (vs : VariantTys) → Nat → De.Enum →
    Except Error (interpVariants vs)
  | .nil, _, _ => .error (Error.custom "variant index out of range")
  | .cons v _, 0, e => (decodeVariantPayload v e).map Sum.inl
  | .cons _ vs, n + 1, e => (decodeVariantAt vs n e).map Sum.inr
termination_by vs _ _ => sizeOf vs

/-- Decode one variant's payload through the matching `VariantAccess`
entry point, exactly as the derived code requests it. -/
def decodeVariantPayload : (v : VariantTy) → De.Enum →
    Except Error (interpVariant v)
  | .unit _, e => e.unit_variant
  | .newtype _ t, e =>
      e.newtype_variant_seed fun d => d.deserialize_any (visFor t)
  | .tupleV _ ts, e =>
      e.tuple_variant (tyListLength ts)
        { errVisitor (interpList ts) "tuple variant" with
          visit_seq := fun st => decodeTupleLoop ts st.remaining }
  | .structV _ fs, e =>
      e.struct_variant (fieldNames fs)
        { errVisitor (interpFields fs) "struct variant" with
          visit_map := fun st => decodeFieldsLoop fs st.remaining }
termination_by v _ => sizeOf v

end

/-- `T::deserialize(d)` of the canonical derived implementation of a
universe type: pick the shape-specific typed entry point of the buffer
deserializer — each forwards to `deserialize_any` — with the type's
canonical visitor. -/
def tyDeserialize : (t : Ty) → Deserializer → Except Error (interp t)
  | .unit, d => d.deserialize_unit (visFor .unit)
  | .bool, d => d.deserialize_bool (visFor .bool)
  | .u8, d => d.deserialize_u8 (visFor .u8)
  | .u16, d => d.deserialize_u16 (visFor .u16)
  | .u32, d => d.deserialize_u32 (visFor .u32)
  | .u64, d => d.deserialize_u64 (visFor .u64)
  | .u128, d => d.deserialize_u128 (visFor .u128)
  | .i8, d => d.deserialize_i8 (visFor .i8)
  | .i16, d => d.deserialize_i16 (visFor .i16)
  | .i32, d => d.deserialize_i32 (visFor .i32)
  | .i64, d => d.deserialize_i64 (visFor .i64)
  | .i128, d => d.deserialize_i128 (visFor .i128)
  | .f32, d => d.deserialize_f32 (visFor .f32)
  | .f64, d => d.deserialize_f64 (visFor .f64)
  | .char, d => d.deserialize_char (visFor .char)
  | .str, d => d.deserialize_string (visFor .str)
  | .bytes, d => d.deserialize_bytes (visFor .bytes)
  | .option t, d => d.deserialize_option (visFor (.option t))
  | .vec t, d => d.deserialize_seq (visFor (.vec t))
  | .mapOf k v, d => d.deserialize_map (visFor (.mapOf k v))
  | .tuple ts, d => d.deserialize_tuple (tyListLength ts) (visFor (.tuple ts))
  | .unitStruct name, d =>
      d.deserialize_unit_struct name (visFor (.unitStruct name))
  | .newtypeStruct name t, d =>
      d.deserialize_newtype_struct name (visFor (.newtypeStruct name t))
  | .tupleStruct name ts, d =>
      d.deserialize_tuple_struct name (tyListLength ts)
        (visFor (.tupleStruct name ts))
  | .structTy name fs, d =>
      d.deserialize_struct name (fieldNames fs) (visFor (.structTy name fs))
  | .enumTy name vs, d =>
      d.deserialize_enum name (variantNames vs) (visFor (.enumTy name vs))

/-- The 0-based declaration position of an enum value's variant. -/
def posOfVariants : (vs : VariantTys) → interpVariants vs → Nat
  | .cons _ _, Sum.inl _ => 0
  | .cons _ vs, Sum.inr x => posOfVariants vs x + 1
  | .nil, x => x.elim

/-- The variant's name. -/
def vnameOfVariant : VariantTy → String
  | .unit vn => vn
  | .newtype vn _ => vn
  | .tupleV vn _ => vn
  | .structV vn _ => vn

def vnameOfVariants : (vs : VariantTys) → interpVariants vs → String
  | .cons v _, Sum.inl _ => vnameOfVariant v
  | .cons _ vs, Sum.inr x => vnameOfVariants vs x
  | .nil, x => x.elim

/-- The decode-side payload the captured buffer of an enum value carries. -/
def payloadOfVariant : (v : VariantTy) → interpVariant v → De.Variant
  | .unit _, _ => .value Value.unit
  | .newtype _ t, x => .value (bufOf t x)
  | .tupleV _ ts, x => .tuple (bufOfTuple ts x)
  | .structV _ fs, x => .struct (bufOfFields fs x)

def payloadOfVariants : (vs : VariantTys) → interpVariants vs → De.Variant
  | .cons v _, Sum.inl x => payloadOfVariant v x
  | .cons _ vs, Sum.inr x => payloadOfVariants vs x
  | .nil, x => x.elim

@[simp]
theorem Except.errorBind {ε α β : Type} (e : ε) (f : α → Except ε β) :
    (Except.error e : Except ε α) >>= f = .error e := rfl

@[simp]
theorem Except.okBind {ε α β : Type} (a : α) (f : α → Except ε β) :
    (Except.ok a : Except ε α) >>= f = f a := rfl

@[simp]
theorem Except.mapErrorEq {ε α β : Type} (e : ε) (f : α → β) :
    Except.map f (Except.error e : Except ε α) = .error e := rfl

@[simp]
theorem Except.mapOkEq {ε α β : Type} (a : α) (f : α → β) :
    Except.map f (Except.ok a : Except ε α) = .ok (f a) := rfl

theorem captureMapOps_keyValueOps (pairs : List (SValue × SValue))
    (cap : Nat) (acc : List (Value × Value)) :
    captureMapOps (keyValueOps pairs) ⟨cap, Option.none, acc⟩ =
      (capturePairs pairs).map fun ps =>
        (⟨cap, Option.none, acc ++ ps⟩ : SerializeMap) := by
  induction pairs generalizing acc with
  | nil => simp [keyValueOps, capturePairs, captureMapOps]
  | cons p rest ih =>
    obtain ⟨k, v⟩ := p
    simp only [keyValueOps, List.flatMap_cons, List.cons_append,
      List.nil_append, captureMapOps, SerializeMap.serialize_key,
      Option.isSome_none, Bool.false_eq_true, if_false, capturePairs]
    cases hk : capture k with
    | error e => simp
    | ok ck =>
      simp only [Except.okBind, captureMapOps, SerializeMap.serialize_value]
      cases hv : capture v with
      | error e => simp
      | ok cv =>
        simp only [Except.okBind]
        have h := ih (acc ++ [(ck, cv)])
        simp only [keyValueOps] at h
        rw [h]
        cases capturePairs rest with
        | error e => simp
        | ok ps => simp

/-- C4: the two-phase map staging machine of capture.  A value-phase call
with no staged key fails with `"missing map key"` (before even capturing the
value); a key-phase call while a key is staged fails with
`"missing map value"`; finalizing with a staged unpaired key fails with
`"missing map value"`; `serialize_entry` on an unstaged builder appends the
captured pair directly without staging; and a strictly alternating
key/value drive pairs each key with the following value in insertion
order. -/
theorem c4_map_staging :
    (∀ (cap : Nat) (fs : List (Value × Value)) (v : SValue),
      SerializeMap.serialize_value ⟨cap, Option.none, fs⟩ v =
        .error (Error.custom "missing map key")) ∧
    (∀ (cap : Nat) (k₀ : Value) (fs : List (Value × Value)) (k : SValue),
      SerializeMap.serialize_key ⟨cap, Option.some k₀, fs⟩ k =
        .error (Error.custom "missing map value")) ∧
    (∀ (cap : Nat) (k₀ : Value) (fs : List (Value × Value)),
      SerializeMap.finish ⟨cap, Option.some k₀, fs⟩ =
        .error (Error.custom "missing map value")) ∧
    (∀ (cap : Nat) (fs : List (Value × Value)) (k v : SValue),
      SerializeMap.serialize_entry ⟨cap, Option.none, fs⟩ k v =
        (do
          let ck ← capture k
          let cv ← capture v
          .ok (⟨cap, Option.none, fs ++ [(ck, cv)]⟩ : SerializeMap))) ∧
    (∀ (cap : Nat) (pairs : List (SValue × SValue)),
      captureMapOps (keyValueOps pairs) ⟨cap, Option.none, []⟩ =
        (capturePairs pairs).map fun ps =>
          (⟨cap, Option.none, ps⟩ : SerializeMap)) := by
  refine ⟨?_, ?_, ?_, ?_, ?_⟩
  · intro cap fs v
    simp [SerializeMap.serialize_value]
  · intro cap k₀ fs k
    simp [SerializeMap.serialize_key]
  · intro cap k₀ fs
    simp [SerializeMap.finish]
  · intro cap fs k v
    simp [SerializeMap.serialize_entry]
  · intro cap pairs
    simpa using captureMapOps_keyValueOps pairs cap []

theorem captureSeqElems_replicate_unit (n : Nat) (st : SerializeSeq) :
    captureSeqElems (List.replicate n .unit) st =
      .ok ⟨st.cap, st.fields ++ List.replicate n Value.unit⟩ := by
  induction n generalizing st with
  | zero => simp [captureSeqElems]
  | succ n ih =>
    simp only [List.replicate_succ, captureSeqElems, capture]
    rw [show ((Except.ok Value.unit : Except Error Value) >>= fun c =>
      captureSeqElems (List.replicate n SValue.unit)
        { st with fields := st.fields ++ [c] }) =
      captureSeqElems (List.replicate n SValue.unit)
        { st with fields := st.fields ++ [Value.unit] } from rfl]
    rw [ih]
    simp

/-- C8: every compound capture builder pre-allocates exactly
`min(declared hint, 32)` (an absent hint counting as 0), however large the
declared hint is; and elements beyond 32 are still accepted and buffered
(a sequence capture of any length `n`, under any declared hint, buffers all
`n` elements). -/
theorem c8_capacity_clamped :
    (∀ len, (Serializer.serialize_seq len).cap = min (len.getD 0) 32) ∧
    (∀ len, (Serializer.serialize_tuple len).cap = min len 32) ∧
    (∀ name len,
      (Serializer.serialize_tuple_struct name len).cap = min len 32) ∧
    (∀ name idx variant len,
      (Serializer.serialize_tuple_variant name idx variant len).cap =
        min len 32) ∧
    (∀ len, (Serializer.serialize_map len).cap = min (len.getD 0) 32) ∧
    (∀ name len, (Serializer.serialize_struct name len).cap = min len 32) ∧
    (∀ name idx variant len,
      (Serializer.serialize_struct_variant name idx variant len).cap =
        min len 32) ∧
    (∀ len n, capture (SValue.seq len (List.replicate n .unit)) =
      .ok (Value.seq (List.replicate n Value.unit))) := by
  refine ⟨fun _ => rfl, fun _ => rfl, fun _ _ => rfl, fun _ _ _ _ => rfl,
    fun _ => rfl, fun _ _ => rfl, fun _ _ _ _ => rfl, ?_⟩
  intro len n
  simp only [capture]
  rw [show Serializer.serialize_seq len = ⟨min (len.getD 0) 32, []⟩ from rfl]
  rw [captureSeqElems_replicate_unit]
  simp [SerializeSeq.finish]

theorem vtraceElems_append (a b : List Value) :
    vtraceElems (a ++ b) = vtraceElems a ++ vtraceElems b := by
  induction a with
  | nil => simp [vtraceElems]
  | cons v vs ih => simp [vtraceElems, ih]

theorem vtraceFields_append (a b : List (String × Value)) :
    vtraceFields (a ++ b) = vtraceFields a ++ vtraceFields b := by
  induction a with
  | nil => simp [vtraceFields]
  | cons v vs ih =>
    obtain ⟨n, v⟩ := v
    simp [vtraceFields, ih]

theorem vtracePairs_append (a b : List (Value × Value)) :
    vtracePairs (a ++ b) = vtracePairs a ++ vtracePairs b := by
  induction a with
  | nil => simp [vtracePairs]
  | cons v vs ih =>
    obtain ⟨k, v⟩ := v
    simp [vtracePairs, ih]

mutual

/-- Core of C1: when the driver declares accurate hints and its capture
succeeds, replaying the captured buffer through an encoder produces exactly
the push-call trace of driving the encoder directly. -/
theorem c1_capture_trace : ∀ (v : SValue) (c : Value), hintsOk v = true →
    capture v = .ok c → vtrace c = strace v
  | .unit, c, _, hc => by
    simp only [capture, Except.ok.injEq] at hc; subst hc; simp [vtrace, strace]
  | .u8 n, c, _, hc => by
    simp only [capture, Except.ok.injEq] at hc; subst hc; simp [vtrace, strace]
  | .u16 n, c, _, hc => by
    simp only [capture, Except.ok.injEq] at hc; subst hc; simp [vtrace, strace]
  | .u32 n, c, _, hc => by
    simp only [capture, Except.ok.injEq] at hc; subst hc; simp [vtrace, strace]
  | .u64 n, c, _, hc => by
    simp only [capture, Except.ok.injEq] at hc; subst hc; simp [vtrace, strace]
  | .u128 n, c, _, hc => by
    simp only [capture, Except.ok.injEq] at hc; subst hc; simp [vtrace, strace]
  | .i8 n, c, _, hc => by
    simp only [capture, Except.ok.injEq] at hc; subst hc; simp [vtrace, strace]
  | .i16 n, c, _, hc => by
    simp only [capture, Except.ok.injEq] at hc; subst hc; simp [vtrace, strace]
  | .i32 n, c, _, hc => by
    simp only [capture, Except.ok.injEq] at hc; subst hc; simp [vtrace, strace]
  | .i64 n, c, _, hc => by
    simp only [capture, Except.ok.injEq] at hc; subst hc; simp [vtrace, strace]
  | .i128 n, c, _, hc => by
    simp only [capture, Except.ok.injEq] at hc; subst hc; simp [vtrace, strace]
  | .f32 b, c, _, hc => by
    simp only [capture, Except.ok.injEq] at hc; subst hc; simp [vtrace, strace]
  | .f64 b, c, _, hc => by
    simp only [capture, Except.ok.injEq] at hc; subst hc; simp [vtrace, strace]
  | .bool b, c, _, hc => by
    simp only [capture, Except.ok.injEq] at hc; subst hc; simp [vtrace, strace]
  | .char ch, c, _, hc => by
    simp only [capture, Except.ok.injEq] at hc; subst hc; simp [vtrace, strace]
  | .str s, c, _, hc => by
    simp only [capture, Except.ok.injEq] at hc; subst hc; simp [vtrace, strace]
  | .bytes b, c, _, hc => by
    simp only [capture, Except.ok.injEq] at hc; subst hc; simp [vtrace, strace]
  | .none, c, _, hc => by
    simp only [capture, Except.ok.injEq] at hc; subst hc; simp [vtrace, strace]
  | .unitStruct name, c, _, hc => by
    simp only [capture, Except.ok.injEq] at hc; subst hc; simp [vtrace, strace]
  | .unitVariant name idx variant, c, _, hc => by
    simp only [capture, Except.ok.injEq] at hc; subst hc; simp [vtrace, strace]
  | .some v, c, hh, hc => by
    simp only [capture] at hc
    cases hcv : capture v with
    | error e => rw [hcv] at hc; simp at hc
    | ok cv =>
      rw [hcv] at hc
      simp only [Except.okBind, Except.ok.injEq] at hc
      subst hc
      simp only [hintsOk] at hh
      simp [vtrace, strace, c1_capture_trace v cv hh hcv]
  | .newtypeStruct name v, c, hh, hc => by
    simp only [capture] at hc
    cases hcv : capture v with
    | error e => rw [hcv] at hc; simp at hc
    | ok cv =>
      rw [hcv] at hc
      simp only [Except.okBind, Except.ok.injEq] at hc
      subst hc
      simp only [hintsOk] at hh
      simp [vtrace, strace, c1_capture_trace v cv hh hcv]
  | .newtypeVariant name idx variant v, c, hh, hc => by
    simp only [capture] at hc
    cases hcv : capture v with
    | error e => rw [hcv] at hc; simp at hc
    | ok cv =>
      rw [hcv] at hc
      simp only [Except.okBind, Except.ok.injEq] at hc
      subst hc
      simp only [hintsOk] at hh
      simp [vtrace, strace, c1_capture_trace v cv hh hcv]
  | .seq len elems, c, hh, hc => by
    simp only [capture] at hc
    cases hst : captureSeqElems elems (Serializer.serialize_seq len) with
    | error e => rw [hst] at hc; simp at hc
    | ok st =>
      rw [hst] at hc
      simp only [Except.okBind, Except.ok.injEq] at hc
      subst hc
      simp only [hintsOk, Bool.and_eq_true, beq_iff_eq] at hh
      have h := c1_seq_elems elems (Serializer.serialize_seq len) st hh.2 hst
      simp only [Serializer.serialize_seq] at h
      simp only [SerializeSeq.finish, vtrace, strace, h.1, h.2, hh.1]
      simp [vtraceElems]
  | .tuple len fields, c, hh, hc => by
    simp only [capture] at hc
    cases hst : captureTupleElems fields (Serializer.serialize_tuple len) with
    | error e => rw [hst] at hc; simp at hc
    | ok st =>
      rw [hst] at hc
      simp only [Except.okBind, Except.ok.injEq] at hc
      subst hc
      simp only [hintsOk, Bool.and_eq_true, beq_iff_eq] at hh
      have h := c1_tuple_elems fields (Serializer.serialize_tuple len) st
        hh.2 hst
      simp only [Serializer.serialize_tuple] at h
      simp only [SerializeTuple.finish, vtrace, strace, h.1, h.2, hh.1]
      simp [vtraceElems]
  | .tupleStruct name len fields, c, hh, hc => by
    simp only [capture] at hc
    cases hst : captureTupleStructFields fields
        (Serializer.serialize_tuple_struct name len) with
    | error e => rw [hst] at hc; simp at hc
    | ok st =>
      rw [hst] at hc
      simp only [Except.okBind, Except.ok.injEq] at hc
      subst hc
      simp only [hintsOk, Bool.and_eq_true, beq_iff_eq] at hh
      have h := c1_tuple_struct_fields fields
        (Serializer.serialize_tuple_struct name len) st hh.2 hst
      simp only [Serializer.serialize_tuple_struct] at h
      simp only [SerializeTupleStruct.finish, vtrace, strace, h.1.1, h.1.2,
        h.2, hh.1]
      simp [vtraceElems]
  | .tupleVariant name idx variant len fields, c, hh, hc => by
    simp only [capture] at hc
    cases hst : captureTupleVariantFields fields
        (Serializer.serialize_tuple_variant name idx variant len) with
    | error e => rw [hst] at hc; simp at hc
    | ok st =>
      rw [hst] at hc
      simp only [Except.okBind, Except.ok.injEq] at hc
      subst hc
      simp only [hintsOk, Bool.and_eq_true, beq_iff_eq] at hh
      have h := c1_tuple_variant_fields fields
        (Serializer.serialize_tuple_variant name idx variant len) st hh.2 hst
      simp only [Serializer.serialize_tuple_variant] at h
      simp only [SerializeTupleVariant.finish, vtrace, strace, h.1.1, h.1.2,
        h.2.1, h.2.2.1, h.2.2.2, hh.1]
      simp [vtraceElems]
  | .struct name len fields, c, hh, hc => by
    simp only [capture] at hc
    cases hst : captureStructFields fields
        (Serializer.serialize_struct name len) with
    | error e => rw [hst] at hc; simp at hc
    | ok st =>
      rw [hst] at hc
      simp only [Except.okBind, Except.ok.injEq] at hc
      subst hc
      simp only [hintsOk, Bool.and_eq_true, beq_iff_eq] at hh
      have h := c1_struct_fields fields
        (Serializer.serialize_struct name len) st hh.2 hst
      simp only [Serializer.serialize_struct] at h
      simp only [SerializeStruct.finish, vtrace, strace, h.1.1, h.1.2, h.2,
        hh.1]
      simp [vtraceFields]
  | .structVariant name idx variant len fields, c, hh, hc => by
    simp only [capture] at hc
    cases hst : captureStructVariantFields fields
        (Serializer.serialize_struct_variant name idx variant len) with
    | error e => rw [hst] at hc; simp at hc
    | ok st =>
      rw [hst] at hc
      simp only [Except.okBind, Except.ok.injEq] at hc
      subst hc
      simp only [hintsOk, Bool.and_eq_true, beq_iff_eq] at hh
      have h := c1_struct_variant_fields fields
        (Serializer.serialize_struct_variant name idx variant len) st hh.2 hst
      simp only [Serializer.serialize_struct_variant] at h
      simp only [SerializeStructVariant.finish, vtrace, strace, h.1.1, h.1.2,
        h.2.1, h.2.2.1, h.2.2.2, hh.1]
      simp [vtraceFields]
  | .map len ops, c, hh, hc => by
    simp only [capture] at hc
    cases hst : captureMapOps ops (Serializer.serialize_map len) with
    | error e => rw [hst] at hc; simp at hc
    | ok st =>
      rw [hst] at hc
      simp only [Except.okBind, SerializeMap.finish] at hc
      cases hkey : st.key with
      | some k₀ => rw [hkey] at hc; simp at hc
      | none =>
        rw [hkey] at hc
        simp only [Option.isSome_none, Bool.false_eq_true, if_false,
          Except.ok.injEq] at hc
        subst hc
        simp only [hintsOk, Bool.and_eq_true, beq_iff_eq] at hh
        have h := c1_map_ops ops (Serializer.serialize_map len) st hh.2 hst
          hkey
        simp only [Serializer.serialize_map] at h
        simp only [vtrace, strace, h.1, h.2, hh.1]
        simp [vtracePairs, stagedTrace]
termination_by v => sizeOf v

theorem c1_seq_elems : ∀ (l : List SValue) (st st' : SerializeSeq),
    hintsOkElems l = true → captureSeqElems l st = .ok st' →
    vtraceElems st'.fields = vtraceElems st.fields ++ straceElems l ∧
    st'.fields.length = st.fields.length + l.length
  | [], st, st', _, hc => by
    simp only [captureSeqElems, Except.ok.injEq] at hc
    subst hc
    simp [straceElems]
  | v :: vs, st, st', hh, hc => by
    simp only [captureSeqElems] at hc
    simp only [hintsOkElems, Bool.and_eq_true] at hh
    cases hcv : capture v with
    | error e => rw [hcv] at hc; simp at hc
    | ok cv =>
      rw [hcv] at hc
      simp only [Except.okBind] at hc
      have h := c1_seq_elems vs { st with fields := st.fields ++ [cv] } st'
        hh.2 hc
      have hv := c1_capture_trace v cv hh.1 hcv
      simp only [vtraceElems_append] at h
      constructor
      · rw [h.1]
        simp [straceElems, vtraceElems, hv, List.append_assoc]
      · rw [h.2]
        simp only [List.length_append, List.length_cons, List.length_nil]
        omega
termination_by l _ _ => sizeOf l

theorem c1_tuple_elems : ∀ (l : List SValue) (st st' : SerializeTuple),
    hintsOkElems l = true → captureTupleElems l st = .ok st' →
    vtraceElems st'.fields = vtraceElems st.fields ++ straceElems l ∧
    st'.fields.length = st.fields.length + l.length
  | [], st, st', _, hc => by
    simp only [captureTupleElems, Except.ok.injEq] at hc
    subst hc
    simp [straceElems]
  | v :: vs, st, st', hh, hc => by
    simp only [captureTupleElems] at hc
    simp only [hintsOkElems, Bool.and_eq_true] at hh
    cases hcv : capture v with
    | error e => rw [hcv] at hc; simp at hc
    | ok cv =>
      rw [hcv] at hc
      simp only [Except.okBind] at hc
      have h := c1_tuple_elems vs { st with fields := st.fields ++ [cv] } st'
        hh.2 hc
      have hv := c1_capture_trace v cv hh.1 hcv
      simp only [vtraceElems_append] at h
      constructor
      · rw [h.1]
        simp [straceElems, vtraceElems, hv, List.append_assoc]
      · rw [h.2]
        simp only [List.length_append, List.length_cons, List.length_nil]
        omega
termination_by l _ _ => sizeOf l

theorem c1_tuple_struct_fields :
    ∀ (l : List SValue) (st st' : SerializeTupleStruct),
    hintsOkElems l = true → captureTupleStructFields l st = .ok st' →
    (vtraceElems st'.fields = vtraceElems st.fields ++ straceElems l ∧
      st'.fields.length = st.fields.length + l.length) ∧
    st'.name = st.name
  | [], st, st', _, hc => by
    simp only [captureTupleStructFields, Except.ok.injEq] at hc
    subst hc
    simp [straceElems]
  | v :: vs, st, st', hh, hc => by
    simp only [captureTupleStructFields] at hc
    simp only [hintsOkElems, Bool.and_eq_true] at hh
    cases hcv : capture v with
    | error e => rw [hcv] at hc; simp at hc
    | ok cv =>
      rw [hcv] at hc
      simp only [Except.okBind] at hc
      have h := c1_tuple_struct_fields vs
        { st with fields := st.fields ++ [cv] } st' hh.2 hc
      have hv := c1_capture_trace v cv hh.1 hcv
      simp only [vtraceElems_append] at h
      refine ⟨⟨?_, ?_⟩, ?_⟩
      · rw [h.1.1]
        simp [straceElems, vtraceElems, hv, List.append_assoc]
      · rw [h.1.2]
        simp only [List.length_append, List.length_cons, List.length_nil]
        omega
      · exact h.2
termination_by l _ _ => sizeOf l

theorem c1_tuple_variant_fields :
    ∀ (l : List SValue) (st st' : SerializeTupleVariant),
    hintsOkElems l = true → captureTupleVariantFields l st = .ok st' →
    (vtraceElems st'.fields = vtraceElems st.fields ++ straceElems l ∧
      st'.fields.length = st.fields.length + l.length) ∧
    st'.name = st.name ∧ st'.variant_index = st.variant_index ∧
    st'.variant = st.variant
  | [], st, st', _, hc => by
    simp only [captureTupleVariantFields, Except.ok.injEq] at hc
    subst hc
    simp [straceElems]
  | v :: vs, st, st', hh, hc => by
    simp only [captureTupleVariantFields] at hc
    simp only [hintsOkElems, Bool.and_eq_true] at hh
    cases hcv : capture v with
    | error e => rw [hcv] at hc; simp at hc
    | ok cv =>
      rw [hcv] at hc
      simp only [Except.okBind] at hc
      have h := c1_tuple_variant_fields vs
        { st with fields := st.fields ++ [cv] } st' hh.2 hc
      have hv := c1_capture_trace v cv hh.1 hcv
      simp only [vtraceElems_append] at h
      refine ⟨⟨?_, ?_⟩, h.2⟩
      · rw [h.1.1]
        simp [straceElems, vtraceElems, hv, List.append_assoc]
      · rw [h.1.2]
        simp only [List.length_append, List.length_cons, List.length_nil]
        omega
termination_by l _ _ => sizeOf l

theorem c1_struct_fields :
    ∀ (l : List (String × SValue)) (st st' : SerializeStruct),
    hintsOkFields l = true → captureStructFields l st = .ok st' →
    (vtraceFields st'.fields = vtraceFields st.fields ++ straceFields l ∧
      st'.fields.length = st.fields.length + l.length) ∧
    st'.name = st.name
  | [], st, st', _, hc => by
    simp only [captureStructFields, Except.ok.injEq] at hc
    subst hc
    simp [straceFields]
  | (name, v) :: vs, st, st', hh, hc => by
    simp only [captureStructFields] at hc
    simp only [hintsOkFields, Bool.and_eq_true] at hh
    cases hcv : capture v with
    | error e => rw [hcv] at hc; simp at hc
    | ok cv =>
      rw [hcv] at hc
      simp only [Except.okBind] at hc
      have h := c1_struct_fields vs
        { st with fields := st.fields ++ [(name, cv)] } st' hh.2 hc
      have hv := c1_capture_trace v cv hh.1 hcv
      simp only [vtraceFields_append] at h
      refine ⟨⟨?_, ?_⟩, h.2⟩
      · rw [h.1.1]
        simp [straceFields, vtraceFields, hv, List.append_assoc]
      · rw [h.1.2]
        simp only [List.length_append, List.length_cons, List.length_nil]
        omega
termination_by l _ _ => sizeOf l

theorem c1_struct_variant_fields :
    ∀ (l : List (String × SValue)) (st st' : SerializeStructVariant),
    hintsOkFields l = true → captureStructVariantFields l st = .ok st' →
    (vtraceFields st'.fields = vtraceFields st.fields ++ straceFields l ∧
      st'.fields.length = st.fields.length + l.length) ∧
    st'.name = st.name ∧ st'.variant_index = st.variant_index ∧
    st'.variant = st.variant
  | [], st, st', _, hc => by
    simp only [captureStructVariantFields, Except.ok.injEq] at hc
    subst hc
    simp [straceFields]
  | (name, v) :: vs, st, st', hh, hc => by
    simp only [captureStructVariantFields] at hc
    simp only [hintsOkFields, Bool.and_eq_true] at hh
    cases hcv : capture v with
    | error e => rw [hcv] at hc; simp at hc
    | ok cv =>
      rw [hcv] at hc
      simp only [Except.okBind] at hc
      have h := c1_struct_variant_fields vs
        { st with fields := st.fields ++ [(name, cv)] } st' hh.2 hc
      have hv := c1_capture_trace v cv hh.1 hcv
      simp only [vtraceFields_append] at h
      refine ⟨⟨?_, ?_⟩, h.2⟩
      · rw [h.1.1]
        simp [straceFields, vtraceFields, hv, List.append_assoc]
      · rw [h.1.2]
        simp only [List.length_append, List.length_cons, List.length_nil]
        omega
termination_by l _ _ => sizeOf l

theorem c1_map_ops :
    ∀ (l : List (MapOpG SValue)) (st st' : SerializeMap),
    hintsOkOps l = true → captureMapOps l st = .ok st' →
    st'.key = Option.none →
    vtracePairs st'.fields =
      vtracePairs st.fields ++ stagedTrace st.key ++ straceOps l ∧
    st'.fields.length = st.fields.length + opsPairs l
  | [], st, st', _, hc, hk' => by
    simp only [captureMapOps, Except.ok.injEq] at hc
    subst hc
    rw [hk']
    simp [straceOps, stagedTrace, opsPairs]
  | .key k :: rest, st, st', hh, hc, hk' => by
    simp only [captureMapOps, SerializeMap.serialize_key] at hc
    simp only [hintsOkOps, Bool.and_eq_true] at hh
    cases hkey : st.key with
    | some k₀ => rw [hkey] at hc; simp at hc
    | none =>
      rw [hkey] at hc
      simp only [Option.isSome_none, Bool.false_eq_true, if_false] at hc
      cases hck : capture k with
      | error e => rw [hck] at hc; simp at hc
      | ok ck =>
        rw [hck] at hc
        simp only [Except.okBind] at hc
        have h := c1_map_ops rest { st with key := Option.some ck } st'
          hh.2 hc hk'
        have hkk := c1_capture_trace k ck hh.1 hck
        simp only [stagedTrace] at h
        constructor
        · rw [h.1]
          simp [straceOps, stagedTrace, hkk, List.append_assoc]
        · rw [h.2]
          simp [opsPairs]
  | .value v :: rest, st, st', hh, hc, hk' => by
    simp only [captureMapOps, SerializeMap.serialize_value] at hc
    simp only [hintsOkOps, Bool.and_eq_true] at hh
    cases hkey : st.key with
    | none => rw [hkey] at hc; simp at hc
    | some k₀ =>
      rw [hkey] at hc
      simp only [] at hc
      cases hcv : capture v with
      | error e => rw [hcv] at hc; simp at hc
      | ok cv =>
        rw [hcv] at hc
        simp only [Except.okBind] at hc
        have h := c1_map_ops rest
          { st with key := Option.none, fields := st.fields ++ [(k₀, cv)] }
          st' hh.2 hc hk'
        have hv := c1_capture_trace v cv hh.1 hcv
        simp only [stagedTrace, vtracePairs_append] at h
        constructor
        · rw [h.1]
          simp [straceOps, stagedTrace, vtracePairs, hv, List.append_assoc]
        · rw [h.2]
          simp only [List.length_append, List.length_cons, List.length_nil]
          simp [opsPairs]
          omega
  | .entry k v :: rest, st, st', hh, hc, hk' => by
    simp only [captureMapOps, SerializeMap.serialize_entry] at hc
    simp only [hintsOkOps, Bool.and_eq_true] at hh
    cases hkey : st.key with
    | some k₀ => rw [hkey] at hc; simp at hc
    | none =>
      rw [hkey] at hc
      simp only [Option.isSome_none, Bool.false_eq_true, if_false] at hc
      cases hck : capture k with
      | error e => rw [hck] at hc; simp at hc
      | ok ck =>
        rw [hck] at hc
        simp only [Except.okBind] at hc
        cases hcv : capture v with
        | error e => rw [hcv] at hc; simp at hc
        | ok cv =>
          rw [hcv] at hc
          simp only [Except.okBind] at hc
          have h := c1_map_ops rest
            ⟨st.cap, Option.none, st.fields ++ [(ck, cv)]⟩ st' hh.2 hc hk'
          have hkk := c1_capture_trace k ck hh.1.1 hck
          have hv := c1_capture_trace v cv hh.1.2 hcv
          simp only [vtracePairs_append] at h
          constructor
          · rw [h.1]
            simp [straceOps, stagedTrace, vtracePairs, hkk, hv, hkey,
              List.append_assoc]
          · rw [h.2]
            simp only [List.length_append, List.length_cons, List.length_nil]
            simp [opsPairs]
            omega
termination_by l _ _ => sizeOf l

end

/-- C1 counterexample: the claim fails as stated.  A driver may legally pass
`None` as the `serialize_seq` length hint (the hint is `Option<usize>`);
capture succeeds, but replaying the buffer calls `serialize_seq` with
`Some(actual_len)` (src/ser.rs line 141), so the call sequences differ in
their length-hint argument. -/
theorem c1_counterexample :
    capture (SValue.seq Option.none [SValue.unit]) =
      .ok (Value.seq [Value.unit]) ∧
    vtrace (Value.seq [Value.unit]) ≠
      strace (SValue.seq Option.none [SValue.unit]) := by
  constructor
  · simp [capture, captureSeqElems, Serializer.serialize_seq,
      SerializeSeq.finish]
  · intro h
    simp [vtrace, strace, vtraceElems, straceElems] at h

/-- C1 (amended): for every driver whose capture succeeds *and whose declared
length hints equal the actual element counts* (`Some(count)` for seq/map,
`count` for the other compound builders), replaying the captured buffer
through an encoder makes exactly the same sequence of push-interface calls,
with identical arguments — same scalar bit patterns, same ordering of
fields, variants, sequence elements and map entries, same names and variant
indices, and the same length hints — as driving the encoder directly.
Without the hint restriction the traces can differ in the hint argument
(see the counterexample above). -/
theorem c1_roundtrip_trace (v : SValue) (b : Owned)
    (hh : hintsOk v = true) (hc : Owned.buffer v = .ok b) :
    vtrace b.val = strace v := by
  unfold Owned.buffer at hc
  cases hcv : capture v with
  | error e => rw [hcv] at hc; simp at hc
  | ok c =>
    rw [hcv] at hc
    simp only [Except.mapOkEq, Except.ok.injEq] at hc
    subst hc
    exact c1_capture_trace v c hh hcv

theorem c1_roundtrip_trace_witness :
    hintsOk (SValue.struct "Struct" 2 [("a", .unit), ("b", .unit)]) = true ∧
    Owned.buffer (SValue.struct "Struct" 2 [("a", .unit), ("b", .unit)]) =
      .ok ⟨Value.struct "Struct" [("a", Value.unit), ("b", Value.unit)]⟩ ∧
    vtrace (Value.struct "Struct" [("a", Value.unit), ("b", Value.unit)]) =
      strace (SValue.struct "Struct" 2 [("a", .unit), ("b", .unit)]) := by
  have h1 : hintsOk (SValue.struct "Struct" 2 [("a", .unit), ("b", .unit)]) =
      true := by
    simp [hintsOk, hintsOkFields]
  have h2 : Owned.buffer (SValue.struct "Struct" 2
      [("a", .unit), ("b", .unit)]) =
      .ok ⟨Value.struct "Struct" [("a", Value.unit), ("b", Value.unit)]⟩ := by
    simp [Owned.buffer, capture, captureStructFields,
      Serializer.serialize_struct, SerializeStruct.finish]
  exact ⟨h1, h2, c1_roundtrip_trace _ _ h1 h2⟩

/-- C9: the ownership conversions are lossless round trips: `Owned → Ref →
Owned` and unbounded-lifetime `Ref → Owned → Ref` are structural identities,
and each single conversion preserves the entire underlying value tree. -/
theorem c9_conversion_laws :
    (∀ b : Owned, Owned.fromRef (Ref.fromOwned b) = b) ∧
    (∀ r : Ref, Ref.fromOwned (Owned.fromRef r) = r) ∧
    (∀ b : Owned, (Ref.fromOwned b).val = b.val) ∧
    (∀ r : Ref, (Owned.fromRef r).val = r.val) := by
  refine ⟨fun b => rfl, fun r => rfl, fun b => rfl, fun r => rfl⟩

/-- C10: formatting any library error for display yields the one constant
string `"error buffering a value"`; the stored message appears verbatim in
the debug rendering (so it is retained there) while the display output is
the same for every error and so never depends on it. -/
theorem c10_error_display_constant :
    (∀ e : Error, e.displayFmt = "error buffering a value") ∧
    (∀ e : Error, ∃ pre post, e.debugFmt = pre ++ e.msg ++ post) ∧
    (∀ e₁ e₂ : Error, e₁.displayFmt = e₂.displayFmt) := by
  refine ⟨fun e => rfl, fun e => ⟨"Error(\"", "\")", rfl⟩, fun e₁ e₂ => rfl⟩

/-- C3: every explicit typed decode entry point of the buffer deserializer
behaves identically to `deserialize_any` — for every buffer and visitor
(and any shape-specific arguments, which are dropped) exactly the same
computation runs, so the same single visitor call determined by the stored
`Value` variant is made, the stored shape is never reinterpreted to satisfy
the requested shape, and any mismatch error is whatever the visitor itself
returns. -/
theorem c3_typed_entry_points_forward :
    ∀ (α : Type) (d : Deserializer) (visitor : Visitor α) (name : String)
      (fields variants : List String) (len : Nat),
    d.deserialize_bool visitor = d.deserialize_any visitor ∧
    d.deserialize_i8 visitor = d.deserialize_any visitor ∧
    d.deserialize_i16 visitor = d.deserialize_any visitor ∧
    d.deserialize_i32 visitor = d.deserialize_any visitor ∧
    d.deserialize_i64 visitor = d.deserialize_any visitor ∧
    d.deserialize_i128 visitor = d.deserialize_any visitor ∧
    d.deserialize_u8 visitor = d.deserialize_any visitor ∧
    d.deserialize_u16 visitor = d.deserialize_any visitor ∧
    d.deserialize_u32 visitor = d.deserialize_any visitor ∧
    d.deserialize_u64 visitor = d.deserialize_any visitor ∧
    d.deserialize_u128 visitor = d.deserialize_any visitor ∧
    d.deserialize_f32 visitor = d.deserialize_any visitor ∧
    d.deserialize_f64 visitor = d.deserialize_any visitor ∧
    d.deserialize_char visitor = d.deserialize_any visitor ∧
    d.deserialize_str visitor = d.deserialize_any visitor ∧
    d.deserialize_string visitor = d.deserialize_any visitor ∧
    d.deserialize_bytes visitor = d.deserialize_any visitor ∧
    d.deserialize_byte_buf visitor = d.deserialize_any visitor ∧
    d.deserialize_option visitor = d.deserialize_any visitor ∧
    d.deserialize_unit visitor = d.deserialize_any visitor ∧
    d.deserialize_unit_struct name visitor = d.deserialize_any visitor ∧
    d.deserialize_newtype_struct name visitor = d.deserialize_any visitor ∧
    d.deserialize_seq visitor = d.deserialize_any visitor ∧
    d.deserialize_tuple len visitor = d.deserialize_any visitor ∧
    d.deserialize_tuple_struct name len visitor = d.deserialize_any visitor ∧
    d.deserialize_map visitor = d.deserialize_any visitor ∧
    d.deserialize_struct name fields visitor = d.deserialize_any visitor ∧
    d.deserialize_enum name variants visitor = d.deserialize_any visitor ∧
    d.deserialize_identifier visitor = d.deserialize_any visitor ∧
    d.deserialize_ignored_any visitor = d.deserialize_any visitor := by
  intro α d visitor name fields variants len
  refine ⟨rfl, rfl, rfl, rfl, rfl, rfl, rfl, rfl, rfl, rfl, rfl, rfl, rfl,
    rfl, rfl, rfl, rfl, rfl, rfl, rfl, rfl, rfl, rfl, rfl, rfl, rfl, rfl,
    rfl, rfl, rfl⟩

/-- C5: every wrong-payload request during enum decode fails with the pull
protocol's invalid-type error whose message names the payload categories:
a stored unit variant through the tuple-payload entry point yields
`"invalid type: unit variant, expected tuple variant"` (naming
`tuple variant`), through the struct-payload entry point the analogue
naming `struct variant`; a stored tuple payload through the unit-payload
entry point yields `"invalid type: unit variant, expected tuple variant"`
(naming the actual `tuple variant` category); a stored record payload
through the unit entry point names `struct variant`; and the remaining
tuple/struct payload mismatches name both categories likewise. -/
theorem c5_enum_payload_mismatch :
    ∀ (β : Type) (idx : Nat) (vn : String) (len : Nat)
      (names : List String) (visitor : Visitor β)
      (tfields : List Value) (sfields : List (String × Value)),
    De.Enum.tuple_variant ⟨idx, vn, .value Value.unit⟩ len visitor =
      .error (Error.custom
        "invalid type: unit variant, expected tuple variant") ∧
    De.Enum.struct_variant ⟨idx, vn, .value Value.unit⟩ names visitor =
      .error (Error.custom
        "invalid type: unit variant, expected struct variant") ∧
    De.Enum.unit_variant ⟨idx, vn, .tuple tfields⟩ =
      .error (Error.custom
        "invalid type: unit variant, expected tuple variant") ∧
    De.Enum.unit_variant ⟨idx, vn, .struct sfields⟩ =
      .error (Error.custom
        "invalid type: unit variant, expected struct variant") ∧
    De.Enum.tuple_variant ⟨idx, vn, .struct sfields⟩ len visitor =
      .error (Error.custom
        "invalid type: struct variant, expected tuple variant") ∧
    De.Enum.struct_variant ⟨idx, vn, .tuple tfields⟩ names visitor =
      .error (Error.custom
        "invalid type: tuple variant, expected struct variant") := by
  intro β idx vn len names visitor tfields sfields
  refine ⟨rfl, rfl, rfl, rfl, rfl, rfl⟩

/-- C6: enum decode dispatch — `variant_seed` first yields the stored
0-based variant index to the caller's seed as a plain `U32` decode over a
fresh buffer deserializer, returning the access object for the payload; and
`newtype_variant_seed` unwraps a stored newtype payload directly, while a
stored tuple payload is reinterpreted as a synthetic `Tuple` value and a
stored record payload as a synthetic `Struct` value named after the
variant, so decode proceeds through ordinary tuple/struct decode logic. -/
theorem c6_enum_index_then_payload :
    (∀ (β : Type) (e : De.Enum) (seed : Deserializer → Except Error β),
      e.variant_seed seed =
        (seed (Value.u32 e.variant_index).into_deserializer).map
          fun b => (b, e)) ∧
    (∀ (β : Type) (idx : Nat) (vn : String) (v : Value)
      (seed : Deserializer → Except Error β),
      De.Enum.newtype_variant_seed ⟨idx, vn, .value v⟩ seed =
        seed v.into_deserializer) ∧
    (∀ (β : Type) (idx : Nat) (vn : String) (fields : List Value)
      (seed : Deserializer → Except Error β),
      De.Enum.newtype_variant_seed ⟨idx, vn, .tuple fields⟩ seed =
        seed (Value.tuple fields).into_deserializer) ∧
    (∀ (β : Type) (idx : Nat) (vn : String)
      (fields : List (String × Value))
      (seed : Deserializer → Except Error β),
      De.Enum.newtype_variant_seed ⟨idx, vn, .struct fields⟩ seed =
        seed (Value.struct vn fields).into_deserializer) := by
  refine ⟨fun β e seed => rfl, fun β idx vn v seed => rfl,
    fun β idx vn fields seed => rfl, fun β idx vn fields seed => rfl⟩

/-- C7: the decode-side map cursor is strict key-then-value: a value
request with no staged entry fails with `"missing map value"`; a key
request delivers the first remaining stored key to the seed and advances
the cursor (staging that entry's value), so repeated key requests yield the
stored keys in insertion order; a full key-then-value step pops exactly the
head entry; and once the last pair is consumed the cursor reports
exhaustion (`None`), leaving the state unchanged. -/
theorem c7_map_cursor_strict :
    (∀ (β : Type) (remaining : List (De.MKey × Value))
      (seed : Deserializer → Except Error β),
      De.Map.next_value_seed ⟨remaining, Option.none⟩ seed =
        .error (Error.custom "missing map value")) ∧
    (∀ (β : Type) (k : De.MKey) (v : Value)
      (rest : List (De.MKey × Value)) (staged : Option Value)
      (seed : De.MKey → Except Error β),
      De.Map.next_key_seed ⟨(k, v) :: rest, staged⟩ seed =
        (seed k).map fun b => (Option.some b, ⟨rest, Option.some v⟩)) ∧
    (∀ (k : De.MKey) (v : Value) (rest : List (De.MKey × Value))
      (staged : Option Value),
      De.Map.stepEntry ⟨(k, v) :: rest, staged⟩ =
        .ok (Option.some ((k, v), ⟨rest, Option.none⟩))) ∧
    (∀ (β : Type) (staged : Option Value) (seed : De.MKey → Except Error β),
      De.Map.next_key_seed ⟨[], staged⟩ seed =
        .ok (Option.none, ⟨[], staged⟩)) ∧
    (∀ (staged : Option Value),
      De.Map.stepEntry ⟨[], staged⟩ = .ok Option.none) := by
  refine ⟨fun β remaining seed => rfl, fun β k v rest staged seed => rfl,
    fun k v rest staged => rfl, fun β staged seed => rfl,
    fun staged => rfl⟩

theorem captureList_map_of_pointwise {α : Type} (f : α → SValue)
    (g : α → Value) (h : ∀ x, capture (f x) = .ok (g x)) :
    ∀ xs : List α, captureList (xs.map f) = .ok (xs.map g) := by
  intro xs
  induction xs with
  | nil => simp [captureList]
  | cons x xs ih => simp [captureList, h x, ih]

theorem capturePairs_map_of_pointwise {α : Type} (fk fv : α → SValue)
    (gk gv : α → Value) (hk : ∀ x, capture (fk x) = .ok (gk x))
    (hv : ∀ x, capture (fv x) = .ok (gv x)) :
    ∀ xs : List α, capturePairs (xs.map fun x => (fk x, fv x)) =
      .ok (xs.map fun x => (gk x, gv x)) := by
  intro xs
  induction xs with
  | nil => simp [capturePairs]
  | cons x xs ih => simp [capturePairs, hk x, hv x, ih]

theorem captureSeqElems_of_list :
    ∀ (l : List SValue) (cs : List Value) (st : SerializeSeq),
    captureList l = .ok cs →
    captureSeqElems l st = .ok ⟨st.cap, st.fields ++ cs⟩ := by
  intro l
  induction l with
  | nil =>
    intro cs st hc
    simp only [captureList, Except.ok.injEq] at hc
    subst hc
    simp [captureSeqElems]
  | cons v vs ih =>
    intro cs st hc
    simp only [captureList] at hc
    cases hcv : capture v with
    | error e => rw [hcv] at hc; simp at hc
    | ok c =>
      rw [hcv] at hc
      simp only [Except.okBind] at hc
      cases hcs : captureList vs with
      | error e => rw [hcs] at hc; simp at hc
      | ok cs' =>
        rw [hcs] at hc
        simp only [Except.okBind, Except.ok.injEq] at hc
        subst hc
        simp only [captureSeqElems, hcv, Except.okBind]
        rw [ih cs' _ hcs]
        simp

theorem captureTupleElems_of_list :
    ∀ (l : List SValue) (cs : List Value) (st : SerializeTuple),
    captureList l = .ok cs →
    captureTupleElems l st = .ok ⟨st.cap, st.fields ++ cs⟩ := by
  intro l
  induction l with
  | nil =>
    intro cs st hc
    simp only [captureList, Except.ok.injEq] at hc
    subst hc
    simp [captureTupleElems]
  | cons v vs ih =>
    intro cs st hc
    simp only [captureList] at hc
    cases hcv : capture v with
    | error e => rw [hcv] at hc; simp at hc
    | ok c =>
      rw [hcv] at hc
      simp only [Except.okBind] at hc
      cases hcs : captureList vs with
      | error e => rw [hcs] at hc; simp at hc
      | ok cs' =>
        rw [hcs] at hc
        simp only [Except.okBind, Except.ok.injEq] at hc
        subst hc
        simp only [captureTupleElems, hcv, Except.okBind]
        rw [ih cs' _ hcs]
        simp

theorem captureTupleStructFields_of_list :
    ∀ (l : List SValue) (cs : List Value) (st : SerializeTupleStruct),
    captureList l = .ok cs →
    captureTupleStructFields l st = .ok ⟨st.name, st.cap, st.fields ++ cs⟩ := by
  intro l
  induction l with
  | nil =>
    intro cs st hc
    simp only [captureList, Except.ok.injEq] at hc
    subst hc
    simp [captureTupleStructFields]
  | cons v vs ih =>
    intro cs st hc
    simp only [captureList] at hc
    cases hcv : capture v with
    | error e => rw [hcv] at hc; simp at hc
    | ok c =>
      rw [hcv] at hc
      simp only [Except.okBind] at hc
      cases hcs : captureList vs with
      | error e => rw [hcs] at hc; simp at hc
      | ok cs' =>
        rw [hcs] at hc
        simp only [Except.okBind, Except.ok.injEq] at hc
        subst hc
        simp only [captureTupleStructFields, hcv, Except.okBind]
        rw [ih cs' _ hcs]
        simp

theorem captureTupleVariantFields_of_list :
    ∀ (l : List SValue) (cs : List Value) (st : SerializeTupleVariant),
    captureList l = .ok cs →
    captureTupleVariantFields l st =
      .ok ⟨st.name, st.variant_index, st.variant, st.cap, st.fields ++ cs⟩ := by
  intro l
  induction l with
  | nil =>
    intro cs st hc
    simp only [captureList, Except.ok.injEq] at hc
    subst hc
    simp [captureTupleVariantFields]
  | cons v vs ih =>
    intro cs st hc
    simp only [captureList] at hc
    cases hcv : capture v with
    | error e => rw [hcv] at hc; simp at hc
    | ok c =>
      rw [hcv] at hc
      simp only [Except.okBind] at hc
      cases hcs : captureList vs with
      | error e => rw [hcs] at hc; simp at hc
      | ok cs' =>
        rw [hcs] at hc
        simp only [Except.okBind, Except.ok.injEq] at hc
        subst hc
        simp only [captureTupleVariantFields, hcv, Except.okBind]
        rw [ih cs' _ hcs]
        simp

theorem captureStructFields_of_list :
    ∀ (l : List (String × SValue)) (cs : List (String × Value))
      (st : SerializeStruct),
    captureFieldList l = .ok cs →
    captureStructFields l st = .ok ⟨st.name, st.cap, st.fields ++ cs⟩ := by
  intro l
  induction l with
  | nil =>
    intro cs st hc
    simp only [captureFieldList, Except.ok.injEq] at hc
    subst hc
    simp [captureStructFields]
  | cons nv vs ih =>
    obtain ⟨n, v⟩ := nv
    intro cs st hc
    simp only [captureFieldList] at hc
    cases hcv : capture v with
    | error e => rw [hcv] at hc; simp at hc
    | ok c =>
      rw [hcv] at hc
      simp only [Except.okBind] at hc
      cases hcs : captureFieldList vs with
      | error e => rw [hcs] at hc; simp at hc
      | ok cs' =>
        rw [hcs] at hc
        simp only [Except.okBind, Except.ok.injEq] at hc
        subst hc
        simp only [captureStructFields, hcv, Except.okBind]
        rw [ih cs' _ hcs]
        simp

theorem captureStructVariantFields_of_list :
    ∀ (l : List (String × SValue)) (cs : List (String × Value))
      (st : SerializeStructVariant),
    captureFieldList l = .ok cs →
    captureStructVariantFields l st =
      .ok ⟨st.name, st.variant_index, st.variant, st.cap, st.fields ++ cs⟩ := by
  intro l
  induction l with
  | nil =>
    intro cs st hc
    simp only [captureFieldList, Except.ok.injEq] at hc
    subst hc
    simp [captureStructVariantFields]
  | cons nv vs ih =>
    obtain ⟨n, v⟩ := nv
    intro cs st hc
    simp only [captureFieldList] at hc
    cases hcv : capture v with
    | error e => rw [hcv] at hc; simp at hc
    | ok c =>
      rw [hcv] at hc
      simp only [Except.okBind] at hc
      cases hcs : captureFieldList vs with
      | error e => rw [hcs] at hc; simp at hc
      | ok cs' =>
        rw [hcs] at hc
        simp only [Except.okBind, Except.ok.injEq] at hc
        subst hc
        simp only [captureStructVariantFields, hcv, Except.okBind]
        rw [ih cs' _ hcs]
        simp

theorem captureMapOps_entryOps :
    ∀ (pairs : List (SValue × SValue)) (ps : List (Value × Value))
      (cap : Nat) (fields : List (Value × Value)),
    capturePairs pairs = .ok ps →
    captureMapOps (entryOps pairs) ⟨cap, Option.none, fields⟩ =
      .ok ⟨cap, Option.none, fields ++ ps⟩ := by
  intro pairs
  induction pairs with
  | nil =>
    intro ps cap fields hc
    simp only [capturePairs, Except.ok.injEq] at hc
    subst hc
    simp [entryOps, captureMapOps]
  | cons p rest ih =>
    obtain ⟨k, v⟩ := p
    intro ps cap fields hc
    simp only [capturePairs] at hc
    cases hck : capture k with
    | error e => rw [hck] at hc; simp at hc
    | ok ck =>
      rw [hck] at hc
      simp only [Except.okBind] at hc
      cases hcv : capture v with
      | error e => rw [hcv] at hc; simp at hc
      | ok cv =>
        rw [hcv] at hc
        simp only [Except.okBind] at hc
        cases hcs : capturePairs rest with
        | error e => rw [hcs] at hc; simp at hc
        | ok tail =>
          rw [hcs] at hc
          simp only [Except.okBind, Except.ok.injEq] at hc
          subst hc
          simp only [entryOps, List.map_cons, captureMapOps,
            SerializeMap.serialize_entry, Option.isSome_none,
            Bool.false_eq_true, if_false, hck, Except.okBind, hcv]
          have := ih tail cap (fields ++ [(ck, cv)]) hcs
          simp only [entryOps] at this
          rw [this]
          simp

mutual

/-- Capturing a canonical driver always succeeds and yields exactly the
expected buffer tree. -/
theorem capA : ∀ (t : Ty) (x : interp t),
    capture (toDriver t x) = .ok (bufOf t x)
  | .unit, x => by simp [toDriver, bufOf, capture]
  | .bool, x => by simp [toDriver, bufOf, capture]
  | .u8, x => by simp [toDriver, bufOf, capture]
  | .u16, x => by simp [toDriver, bufOf, capture]
  | .u32, x => by simp [toDriver, bufOf, capture]
  | .u64, x => by simp [toDriver, bufOf, capture]
  | .u128, x => by simp [toDriver, bufOf, capture]
  | .i8, x => by simp [toDriver, bufOf, capture]
  | .i16, x => by simp [toDriver, bufOf, capture]
  | .i32, x => by simp [toDriver, bufOf, capture]
  | .i64, x => by simp [toDriver, bufOf, capture]
  | .i128, x => by simp [toDriver, bufOf, capture]
  | .f32, x => by simp [toDriver, bufOf, capture]
  | .f64, x => by simp [toDriver, bufOf, capture]
  | .char, x => by simp [toDriver, bufOf, capture]
  | .str, x => by simp [toDriver, bufOf, capture]
  | .bytes, x => by simp [toDriver, bufOf, capture]
  | .option t, x => by
    cases x with
    | none => simp [toDriver, bufOf, capture]
    | some y => simp [toDriver, bufOf, capture, capA t y]
  | .vec t, xs => by
    simp only [toDriver, bufOf, capture]
    rw [captureSeqElems_of_list _ (xs.map fun y => bufOf t y) _
      (captureList_map_of_pointwise _ _ (fun y => capA t y) xs)]
    simp [Serializer.serialize_seq, SerializeSeq.finish]
  | .mapOf k v, es => by
    simp only [toDriver, bufOf, capture]
    have hops : (es.map fun e =>
        MapOpG.entry (toDriver k e.1) (toDriver v e.2)) =
        entryOps (es.map fun e => (toDriver k e.1, toDriver v e.2)) := by
      simp [entryOps, List.map_map]
    rw [hops]
    rw [show Serializer.serialize_map (Option.some es.length) =
      ⟨min es.length 32, Option.none, []⟩ from rfl]
    rw [captureMapOps_entryOps _ (es.map fun e => (bufOf k e.1, bufOf v e.2))
      _ _ (capturePairs_map_of_pointwise _ _ _ _
        (fun y => capA k y.1) (fun y => capA v y.2) es)]
    simp [SerializeMap.finish]
  | .tuple ts, x => by
    simp only [toDriver, bufOf, capture]
    rw [captureTupleElems_of_list _ (bufOfTuple ts x) _ (capA_tuple ts x)]
    simp [Serializer.serialize_tuple, SerializeTuple.finish]
  | .unitStruct name, x => by simp [toDriver, bufOf, capture]
  | .newtypeStruct name t, x => by
    simp [toDriver, bufOf, capture, capA t x]
  | .tupleStruct name ts, x => by
    simp only [toDriver, bufOf, capture]
    rw [captureTupleStructFields_of_list _ (bufOfTuple ts x) _
      (capA_tuple ts x)]
    simp [Serializer.serialize_tuple_struct, SerializeTupleStruct.finish]
  | .structTy name fs, x => by
    simp only [toDriver, bufOf, capture]
    rw [captureStructFields_of_list _ (bufOfFields fs x) _
      (capA_fields fs x)]
    simp [Serializer.serialize_struct, SerializeStruct.finish]
  | .enumTy name vs, x => by
    simp only [toDriver, bufOf]
    exact capA_variants vs name 0 x
termination_by t _ => sizeOf t

theorem capA_tuple : ∀ (ts : TyList) (x : interpList ts),
    captureList (toDriverTuple ts x) = .ok (bufOfTuple ts x)
  | .nil, x => by simp [toDriverTuple, bufOfTuple, captureList]
  | .cons t ts, x => by
    simp [toDriverTuple, bufOfTuple, captureList, capA t x.1,
      capA_tuple ts x.2]
termination_by ts _ => sizeOf ts

theorem capA_fields : ∀ (fs : FieldTys) (x : interpFields fs),
    captureFieldList (toDriverFields fs x) = .ok (bufOfFields fs x)
  | .nil, x => by simp [toDriverFields, bufOfFields, captureFieldList]
  | .cons n t fs, x => by
    simp [toDriverFields, bufOfFields, captureFieldList, capA t x.1,
      capA_fields fs x.2]
termination_by fs _ => sizeOf fs

theorem capA_variants : ∀ (vs : VariantTys) (name : String) (i : Nat)
    (x : interpVariants vs),
    capture (toDriverVariants name vs i x) = .ok (bufOfVariants name vs i x)
  | .cons v _, name, i, Sum.inl x => by
    simp only [toDriverVariants, bufOfVariants]
    exact capA_variant v name i x
  | .cons _ vs, name, i, Sum.inr x => by
    simp only [toDriverVariants, bufOfVariants]
    exact capA_variants vs name (i + 1) x
  | .nil, _, _, x => x.elim
termination_by vs _ _ _ => sizeOf vs

theorem capA_variant : ∀ (v : VariantTy) (name : String) (i : Nat)
    (x : interpVariant v),
    capture (toDriverVariant name v i x) = .ok (bufOfVariant name v i x)
  | .unit vn, name, i, x => by
    simp [toDriverVariant, bufOfVariant, capture]
  | .newtype vn t, name, i, x => by
    simp [toDriverVariant, bufOfVariant, capture, capA t x]
  | .tupleV vn ts, name, i, x => by
    simp only [toDriverVariant, bufOfVariant, capture]
    rw [captureTupleVariantFields_of_list _ (bufOfTuple ts x) _
      (capA_tuple ts x)]
    simp [Serializer.serialize_tuple_variant, SerializeTupleVariant.finish]
  | .structV vn fs, name, i, x => by
    simp only [toDriverVariant, bufOfVariant, capture]
    rw [captureStructVariantFields_of_list _ (bufOfFields fs x) _
      (capA_fields fs x)]
    simp [Serializer.serialize_struct_variant, SerializeStructVariant.finish]
termination_by v _ _ _ => sizeOf v

end

theorem posOfVariants_lt : ∀ (vs : VariantTys) (x : interpVariants vs),
    posOfVariants vs x < variantTysLength vs
  | .cons _ _, Sum.inl _ => by
    simp [posOfVariants, variantTysLength]
  | .cons _ vs, Sum.inr x => by
    simp only [posOfVariants, variantTysLength]
    exact Nat.succ_lt_succ (posOfVariants_lt vs x)
  | .nil, x => x.elim

/-- Replaying an enum buffer through `deserialize_any` makes exactly one
`visit_enum` call carrying the stored index, name and payload. -/
theorem deserializeAny_bufOfVariants {α : Type} :
    ∀ (vs : VariantTys) (x : interpVariants vs) (name : String) (i : Nat)
      (vis : Visitor α),
    Deserializer.deserialize_any ⟨bufOfVariants name vs i x⟩ vis =
      vis.visit_enum ⟨i + posOfVariants vs x, vnameOfVariants vs x,
        payloadOfVariants vs x⟩
  | .cons v _, Sum.inl x, name, i, vis => by
    cases v with
    | unit vn =>
      simp [bufOfVariants, bufOfVariant, posOfVariants, vnameOfVariants,
        vnameOfVariant, payloadOfVariants, payloadOfVariant,
        Deserializer.deserialize_any]
    | newtype vn t =>
      simp [bufOfVariants, bufOfVariant, posOfVariants, vnameOfVariants,
        vnameOfVariant, payloadOfVariants, payloadOfVariant,
        Deserializer.deserialize_any]
    | tupleV vn ts =>
      simp [bufOfVariants, bufOfVariant, posOfVariants, vnameOfVariants,
        vnameOfVariant, payloadOfVariants, payloadOfVariant,
        Deserializer.deserialize_any]
    | structV vn fs =>
      simp [bufOfVariants, bufOfVariant, posOfVariants, vnameOfVariants,
        vnameOfVariant, payloadOfVariants, payloadOfVariant,
        Deserializer.deserialize_any]
  | .cons _ vs, Sum.inr x, name, i, vis => by
    simp only [bufOfVariants, posOfVariants, vnameOfVariants,
      payloadOfVariants]
    rw [deserializeAny_bufOfVariants vs x name (i + 1) vis]
    have harith : i + 1 + posOfVariants vs x =
        i + (posOfVariants vs x + 1) := by omega
    rw [harith]
  | .nil, x, _, _, _ => x.elim

/-- One-step dispatch facts of `deserialize_any` (each holds by unfolding
the plain definition on a known constructor): used to drive the round-trip
proof without unfolding nested decodes. -/
theorem deserialize_any_u8 {α : Type} (n : Nat) (vis : Visitor α) :
    Deserializer.deserialize_any ⟨Value.u8 n⟩ vis = vis.visit_u8 n := rfl

theorem deserialize_any_u16 {α : Type} (n : Nat) (vis : Visitor α) :
    Deserializer.deserialize_any ⟨Value.u16 n⟩ vis = vis.visit_u16 n := rfl

theorem deserialize_any_u32 {α : Type} (n : Nat) (vis : Visitor α) :
    Deserializer.deserialize_any ⟨Value.u32 n⟩ vis = vis.visit_u32 n := rfl

theorem deserialize_any_u64 {α : Type} (n : Nat) (vis : Visitor α) :
    Deserializer.deserialize_any ⟨Value.u64 n⟩ vis = vis.visit_u64 n := rfl

theorem deserialize_any_u128 {α : Type} (n : Nat) (vis : Visitor α) :
    Deserializer.deserialize_any ⟨Value.u128 n⟩ vis = vis.visit_u128 n := rfl

theorem deserialize_any_i8 {α : Type} (n : Int) (vis : Visitor α) :
    Deserializer.deserialize_any ⟨Value.i8 n⟩ vis = vis.visit_i8 n := rfl

theorem deserialize_any_i16 {α : Type} (n : Int) (vis : Visitor α) :
    Deserializer.deserialize_any ⟨Value.i16 n⟩ vis = vis.visit_i16 n := rfl

theorem deserialize_any_i32 {α : Type} (n : Int) (vis : Visitor α) :
    Deserializer.deserialize_any ⟨Value.i32 n⟩ vis = vis.visit_i32 n := rfl

theorem deserialize_any_i64 {α : Type} (n : Int) (vis : Visitor α) :
    Deserializer.deserialize_any ⟨Value.i64 n⟩ vis = vis.visit_i64 n := rfl

theorem deserialize_any_i128 {α : Type} (n : Int) (vis : Visitor α) :
    Deserializer.deserialize_any ⟨Value.i128 n⟩ vis = vis.visit_i128 n := rfl

theorem deserialize_any_f32 {α : Type} (b : Nat) (vis : Visitor α) :
    Deserializer.deserialize_any ⟨Value.f32 b⟩ vis = vis.visit_f32 b := rfl

theorem deserialize_any_f64 {α : Type} (b : Nat) (vis : Visitor α) :
    Deserializer.deserialize_any ⟨Value.f64 b⟩ vis = vis.visit_f64 b := rfl

theorem deserialize_any_bool {α : Type} (b : Bool) (vis : Visitor α) :
    Deserializer.deserialize_any ⟨Value.bool b⟩ vis = vis.visit_bool b := rfl

theorem deserialize_any_char {α : Type} (c : Char) (vis : Visitor α) :
    Deserializer.deserialize_any ⟨Value.char c⟩ vis = vis.visit_char c := rfl

theorem deserialize_any_str {α : Type} (v : String) (vis : Visitor α) :
    Deserializer.deserialize_any ⟨Value.str v⟩ vis = vis.visit_string v := rfl

theorem deserialize_any_borrowedStr {α : Type} (v : String)
    (vis : Visitor α) :
    Deserializer.deserialize_any ⟨Value.borrowedStr v⟩ vis =
      vis.visit_borrowed_str v := rfl

theorem deserialize_any_bytes {α : Type} (v : List Nat) (vis : Visitor α) :
    Deserializer.deserialize_any ⟨Value.bytes v⟩ vis =
      vis.visit_byte_buf v := rfl

theorem deserialize_any_borrowedBytes {α : Type} (v : List Nat)
    (vis : Visitor α) :
    Deserializer.deserialize_any ⟨Value.borrowedBytes v⟩ vis =
      vis.visit_borrowed_bytes v := rfl

theorem deserialize_any_none {α : Type} (vis : Visitor α) :
    Deserializer.deserialize_any ⟨Value.none⟩ vis = vis.visit_none := rfl

theorem deserialize_any_some {α : Type} (v : Value) (vis : Visitor α) :
    Deserializer.deserialize_any ⟨Value.some v⟩ vis =
      vis.visit_some v.into_deserializer := rfl

theorem deserialize_any_unit {α : Type} (vis : Visitor α) :
    Deserializer.deserialize_any ⟨Value.unit⟩ vis = vis.visit_unit := rfl

theorem deserialize_any_unitStruct {α : Type} (name : String)
    (vis : Visitor α) :
    Deserializer.deserialize_any ⟨Value.unitStruct name⟩ vis =
      vis.visit_unit := rfl

theorem deserialize_any_newtypeStruct {α : Type} (name : String) (v : Value)
    (vis : Visitor α) :
    Deserializer.deserialize_any ⟨Value.newtypeStruct name v⟩ vis =
      vis.visit_newtype_struct ⟨v⟩ := rfl

theorem deserialize_any_struct {α : Type} (name : String)
    (fields : List (String × Value)) (vis : Visitor α) :
    Deserializer.deserialize_any ⟨Value.struct name fields⟩ vis =
      vis.visit_map (De.Map.new_str_key fields) := rfl

theorem deserialize_any_tupleStruct {α : Type} (name : String)
    (fields : List Value) (vis : Visitor α) :
    Deserializer.deserialize_any ⟨Value.tupleStruct name fields⟩ vis =
      vis.visit_seq (De.Seq.new fields) := rfl

theorem deserialize_any_tuple {α : Type} (fields : List Value)
    (vis : Visitor α) :
    Deserializer.deserialize_any ⟨Value.tuple fields⟩ vis =
      vis.visit_seq (De.Seq.new fields) := rfl

theorem deserialize_any_seq {α : Type} (elems : List Value)
    (vis : Visitor α) :
    Deserializer.deserialize_any ⟨Value.seq elems⟩ vis =
      vis.visit_seq (De.Seq.new elems) := rfl

theorem deserialize_any_map {α : Type} (entries : List (Value × Value))
    (vis : Visitor α) :
    Deserializer.deserialize_any ⟨Value.map entries⟩ vis =
      vis.visit_map (De.Map.new entries) := rfl

theorem decodeListWith_map {α β : Type}
    (dec : Deserializer → Except Error β) (g : α → Value) (f : α → β)
    (h : ∀ x, dec ⟨g x⟩ = .ok (f x)) :
    ∀ xs : List α, decodeListWith dec (xs.map g) = .ok (xs.map f) := by
  intro xs
  induction xs with
  | nil => simp [decodeListWith]
  | cons x xs ih => simp [decodeListWith, h x, ih]

theorem decodeEntriesWith_pairs {α κ ν : Type}
    (dk : De.MKey → Except Error κ) (dv : Deserializer → Except Error ν)
    (gk gv : α → Value) (fk : α → κ) (fv : α → ν)
    (hk : ∀ x, dk (De.MKey.val (gk x)) = .ok (fk x))
    (hv : ∀ x, dv ⟨gv x⟩ = .ok (fv x)) :
    ∀ xs : List α,
    decodeEntriesWith dk dv
      ((xs.map fun x => (gk x, gv x)).map fun p => (De.MKey.val p.1, p.2)) =
      .ok (xs.map fun x => (fk x, fv x)) := by
  intro xs
  induction xs with
  | nil => simp [decodeEntriesWith]
  | cons x xs ih => simp [decodeEntriesWith, hk x, hv x, ← List.map_map, ih]

mutual

/-- Decoding the captured buffer of a canonical value through the type's
canonical visitor reproduces the value. -/
theorem decB : ∀ (t : Ty) (x : interp t),
    Deserializer.deserialize_any ⟨bufOf t x⟩ (visFor t) = .ok x
  | .unit, x => by
    simp only [bufOf, deserialize_any_unit, visFor]
    rfl
  | .bool, x => by simp [bufOf, deserialize_any_bool, visFor]
  | .u8, x => by simp [bufOf, deserialize_any_u8, visFor]
  | .u16, x => by simp [bufOf, deserialize_any_u16, visFor]
  | .u32, x => by simp [bufOf, deserialize_any_u32, visFor]
  | .u64, x => by simp [bufOf, deserialize_any_u64, visFor]
  | .u128, x => by simp [bufOf, deserialize_any_u128, visFor]
  | .i8, x => by simp [bufOf, deserialize_any_i8, visFor]
  | .i16, x => by simp [bufOf, deserialize_any_i16, visFor]
  | .i32, x => by simp [bufOf, deserialize_any_i32, visFor]
  | .i64, x => by simp [bufOf, deserialize_any_i64, visFor]
  | .i128, x => by simp [bufOf, deserialize_any_i128, visFor]
  | .f32, x => by simp [bufOf, deserialize_any_f32, visFor]
  | .f64, x => by simp [bufOf, deserialize_any_f64, visFor]
  | .char, x => by simp [bufOf, deserialize_any_char, visFor]
  | .str, x => by simp [bufOf, deserialize_any_str, visFor]
  | .bytes, x => by simp [bufOf, deserialize_any_bytes, visFor]
  | .option t, x => by
    cases x with
    | none => simp [bufOf, deserialize_any_none, visFor]
    | some y =>
      simp only [bufOf, deserialize_any_some, visFor,
        Value.into_deserializer]
      rw [decB t y]
      rfl
  | .vec t, xs => by
    simp only [bufOf, deserialize_any_seq, visFor, De.Seq.new]
    rw [decodeListWith_map _ _ _ (fun y => decB t y) xs]
    simp
  | .mapOf k v, es => by
    simp only [bufOf, deserialize_any_map, visFor, De.Map.new]
    rw [decodeEntriesWith_pairs _ _ _ _ _ _
      (fun y => decB k y.1) (fun y => decB v y.2) es]
    simp
  | .tuple ts, x => by
    simp only [bufOf, deserialize_any_tuple, visFor, De.Seq.new]
    exact decB_tuple ts x
  | .unitStruct name, x => by
    simp only [bufOf, deserialize_any_unitStruct, visFor]
    rfl
  | .newtypeStruct name t, x => by
    simp only [bufOf, deserialize_any_newtypeStruct, visFor]
    exact decB t x
  | .tupleStruct name ts, x => by
    simp only [bufOf, deserialize_any_tupleStruct, visFor, De.Seq.new]
    exact decB_tuple ts x
  | .structTy name fs, x => by
    simp only [bufOf, deserialize_any_struct, visFor, De.Map.new_str_key]
    exact decB_fields fs x
  | .enumTy name vs, x => by
    simp only [bufOf]
    rw [deserializeAny_bufOfVariants vs x name 0 (visFor (.enumTy name vs))]
    simp only [visFor, De.Enum.variant_seed, Value.into_deserializer,
      deserialize_any_u32, identifierVisitor, Nat.zero_add]
    rw [if_pos (posOfVariants_lt vs x)]
    simp only [Except.mapOkEq, Except.okBind]
    exact decB_variantsAt vs x (posOfVariants vs x) (vnameOfVariants vs x)
termination_by t _ => sizeOf t

theorem decB_tuple : ∀ (ts : TyList) (x : interpList ts),
    decodeTupleLoop ts (bufOfTuple ts x) = .ok x
  | .nil, x => by
    simp only [bufOfTuple, decodeTupleLoop]
    rfl
  | .cons t ts, x => by
    simp only [bufOfTuple, decodeTupleLoop]
    rw [decB t x.1]
    simp only [Except.okBind]
    rw [decB_tuple ts x.2]
    simp
termination_by ts _ => sizeOf ts

theorem decB_fields : ∀ (fs : FieldTys) (x : interpFields fs),
    decodeFieldsLoop fs
      ((bufOfFields fs x).map fun p => (De.MKey.str p.1, p.2)) = .ok x
  | .nil, x => by
    simp only [bufOfFields, List.map_nil, decodeFieldsLoop]
    rfl
  | .cons n t fs, x => by
    simp only [bufOfFields, List.map_cons, decodeFieldsLoop, if_pos rfl]
    rw [decB t x.1]
    simp only [Except.okBind]
    rw [decB_fields fs x.2]
    simp
termination_by fs _ => sizeOf fs

theorem decB_variantsAt : ∀ (vs : VariantTys) (x : interpVariants vs)
    (idx : Nat) (vn : String),
    decodeVariantAt vs (posOfVariants vs x)
      ⟨idx, vn, payloadOfVariants vs x⟩ = .ok x
  | .cons v _, Sum.inl x, idx, vn => by
    simp only [posOfVariants, payloadOfVariants, decodeVariantAt]
    rw [decB_variantPayload v x idx vn]
    simp
  | .cons _ vs, Sum.inr x, idx, vn => by
    simp only [posOfVariants, payloadOfVariants, decodeVariantAt]
    rw [decB_variantsAt vs x idx vn]
    simp
  | .nil, x, _, _ => x.elim
termination_by vs _ _ _ => sizeOf vs

theorem decB_variantPayload : ∀ (v : VariantTy) (x : interpVariant v)
    (idx : Nat) (vn : String),
    decodeVariantPayload v ⟨idx, vn, payloadOfVariant v x⟩ = .ok x
  | .unit _, x, idx, vn => by
    simp only [payloadOfVariant, decodeVariantPayload,
      De.Enum.unit_variant]
    rfl
  | .newtype _ t, x, idx, vn => by
    simp only [payloadOfVariant, decodeVariantPayload,
      De.Enum.newtype_variant_seed, Value.into_deserializer]
    exact decB t x
  | .tupleV _ ts, x, idx, vn => by
    simp only [payloadOfVariant, decodeVariantPayload,
      De.Enum.tuple_variant, De.Seq.new]
    exact decB_tuple ts x
  | .structV _ fs, x, idx, vn => by
    simp only [payloadOfVariant, decodeVariantPayload,
      De.Enum.struct_variant, De.Map.new_str_key]
    exact decB_fields fs x
termination_by v _ _ _ => sizeOf v

end

/-- C2: for every value `x` of a universe type `t` (a type that both
captures and decodes, with the canonical derive-generated serde
implementations), if buffering the value succeeds with buffer `b`, then
deserializing `b` through its `into_deserializer` against the same type
succeeds and yields a value equal to `x`.  (Buffering in fact always
succeeds for these drivers: `capA`.) -/
theorem c2_decode_identity (t : Ty) (x : interp t) (b : Owned)
    (hc : Owned.buffer (toDriver t x) = .ok b) :
    tyDeserialize t b.into_deserializer = .ok x := by
  unfold Owned.buffer at hc
  rw [capA t x] at hc
  simp only [Except.mapOkEq, Except.ok.injEq] at hc
  subst hc
  have hany : Deserializer.deserialize_any ⟨bufOf t x⟩ (visFor t) = .ok x :=
    decB t x
  cases t <;> exact hany

theorem c2_decode_identity_witness :
    Owned.buffer (toDriver (Ty.option Ty.u8) (Option.some (42 : Nat))) =
      .ok ⟨Value.some (Value.u8 42)⟩ ∧
    tyDeserialize (Ty.option Ty.u8)
      (Owned.mk (Value.some (Value.u8 42))).into_deserializer =
      .ok (Option.some (42 : Nat)) := by
  have h : Owned.buffer (toDriver (Ty.option Ty.u8) (Option.some (42 : Nat))) =
      .ok ⟨Value.some (Value.u8 42)⟩ := by
    simp [Owned.buffer, toDriver, capture]
  exact ⟨h, c2_decode_identity (Ty.option Ty.u8) (Option.some (42 : Nat)) _ h⟩
